import Mathlib

/-!
Emissary: the authorization decision engine.

A shallow embedding of `pkg/handlers/handlers.go`, `pkg/config/config.go` and
the provider client of `pkg/spire/spire.go`.

Modelling conventions
* Go strings are Lean strings; `strings.HasPrefix` and `strings.TrimPrefix`
  work on the underlying character sequences.
* A Go slice is either `nil` or an allocated sequence (`Slice`), a Go map is
  an association list in which the first binding of a key is the live one.
* A Go `error` is `Option String`: `none` is `nil`, `some msg` carries the
  message.
* Logging and metrics are write-only collaborators and are left out; calls to
  the identity provider are recorded in the order they are made.
* `BuildConfig` reads the environment through `getenv` and calls the standard
  library and the SPIFFE library through a record `Lib` of functions; a `range`
  over a map visits the bindings in the order of the association list.
-/

set_option autoImplicit false

namespace Emissary

/-! ## Go values -/

/-- A Go slice: the nil slice, or an allocated slice with its elements. -/
inductive Slice (α : Type) where
  | nil : Slice α
  | of : List α → Slice α
  deriving DecidableEq, Repr

namespace Slice

/-- The elements a `range` loop over the slice visits, in order. -/
def toList {α : Type} : Slice α → List α
  | nil => []
  | of xs => xs

/-- Go's `s == nil`. -/
def isNil {α : Type} : Slice α → Bool
  | nil => true
  | of _ => false

/-- Go's `len(s)`. -/
def len {α : Type} (s : Slice α) : Nat := s.toList.length

end Slice

/-- A Go `error` value: `none` is `nil`. -/
abbrev GoError := Option String

/-- Go's `strings.HasPrefix(s, pre)`. -/
def HasPrefix (s pre : String) : Bool := pre.data.isPrefixOf s.data

/-- Go's `strings.TrimPrefix(s, pre)`: `s` without the leading `pre`, or `s`
unchanged when it does not start with `pre`. -/
def TrimPrefix (s pre : String) : String :=
  if HasPrefix s pre then String.mk (s.data.drop pre.data.length) else s

/-- A Go `map[string]V`, read with the zero value `zero` for absent keys. -/
def mapIndex {β : Type} (m : List (String × β)) (zero : β) (key : String) : β :=
  (m.lookup key).getD zero

/-! ## pkg/config -/

/-- The struct for each acl in an ingress map. -/
structure ACL where
  Path : String
  Methods : Slice String
  deriving DecidableEq, Repr

/-- The emissary config struct. -/
structure Config where
  ready : Bool
  listener : String
  scheme : String
  workloadSocketPath : String
  ingressMap : List (String × Slice ACL)
  identifier : String
  egressMap : List (String × String)
  dogstatsdHost : String
  dogstatsdPort : Int
  dogstatsdEnabled : Bool
  healthCheckListener : String
  deriving DecidableEq, Repr

namespace Config

def GetIdentifier (c : Config) : String := c.identifier

def GetIngressMapEntry (c : Config) (spiffeid : String) : Slice ACL :=
  mapIndex c.ingressMap Slice.nil spiffeid

def GetEgressMapEntry (c : Config) (spiffeid : String) : String :=
  mapIndex c.egressMap "" spiffeid

end Config

/-! ## pkg/handlers: constants -/

/-- The header we use for carrying the JWT-SVID. -/
def JWTsvidHeaderKey : String := "x-emissary-auth"
/-- The header we use to indicate the direction of request flow. -/
def JWTModeHeader : String := "x-emissary-mode"
def bearerStr : String := "bearer "
/-- Set to success or failure on ingress requests. -/
def AuthStatusHeaderKey : String := "x-emissary-auth-status"

def StatusOK : Nat := 200
def StatusForbidden : Nat := 403
def StatusPreconditionFailed : Nat := 412

/-! ## The ACL matcher -/

/-- Go's `%v` of a bool. -/
def fmtBool (b : Bool) : String := if b then "true" else "false"

/-- The `for aclIndex, entry := range acl` loop of `isPathAndMethodAllowed`,
from index `aclIndex` on, with the current values of the locals `pathMatch`
and `methMatch`; the last case is the statement after the loop. -/
def isPathAndMethodAllowedLoop (method path : String) :
    List ACL → Nat → Bool → String → Bool × Nat × GoError
  | [], _, pathMatch, methMatch =>
    (false, 65535,
      some ("no matching ACL: path match: " ++ fmtBool pathMatch ++
        ", method match: " ++ methMatch))
  | entry :: rest, aclIndex, pathMatch, methMatch =>
    if HasPrefix path entry.Path then
      if entry.Methods.toList.any (fun value => value == method) then
        (true, aclIndex, none)
      else
        isPathAndMethodAllowedLoop method path rest (aclIndex + 1) true "false"
    else
      isPathAndMethodAllowedLoop method path rest (aclIndex + 1) pathMatch methMatch

/-- The request is allowed by the first ACL to match. -/
def isPathAndMethodAllowed (acl : Slice ACL) (method path : String) :
    Bool × Nat × GoError :=
  isPathAndMethodAllowedLoop method path acl.toList 0 false "unknown"

/-- Get token from svid. -/
def parseJWTHeader (header : String) : String × Bool :=
  let suffix := TrimPrefix header bearerStr
  if suffix = header then ("", false) else (suffix, true)

/-! ## Requests, responses and the identity provider -/

/-- The parts of `*http.Request` the handlers read. `Header` lists the header
lines in order; `Path` is `r.URL.Path`. -/
structure Request where
  Method : String
  Path : String
  Host : String
  Header : List (String × String)
  deriving DecidableEq, Repr

/-- Go's `r.Header.Get(key)`: the first value of the header, or `""`. Header
names are compared as written: the canonical spelling Go gives to header names
is not modelled, requests carry the names in the spelling of the constants. -/
def Request.headerGet (r : Request) (key : String) : String :=
  mapIndex r.Header "" key

/-- What an `http.ResponseWriter` has been told: the header map and the status
code passed to the first `WriteHeader`. -/
structure ResponseWriter where
  header : List (String × String)
  code : Option Nat
  deriving DecidableEq, Repr

namespace ResponseWriter

/-- The writer the server hands to a handler: no header, nothing written. -/
def fresh : ResponseWriter := { header := [], code := none }

/-- Go's `w.Header().Set(key, value)`: the value replaces any earlier one. -/
def headerSet (w : ResponseWriter) (key value : String) : ResponseWriter :=
  { w with header := (key, value) :: w.header.filter (fun kv => kv.1 != key) }

/-- Go's `w.WriteHeader(code)`: only the first call counts. -/
def WriteHeader (w : ResponseWriter) (code : Nat) : ResponseWriter :=
  match w.code with
  | none => { w with code := some code }
  | some _ => w

/-- The value of a response header, if it is set. -/
def headerValue (w : ResponseWriter) (key : String) : Option String :=
  w.header.lookup key

end ResponseWriter

/-- The interface `spire.JWTSVID`: what one call of each method answers. -/
structure JWTSVID where
  Validate : String → String → Bool × String × GoError
  Fetch : String → String → String × GoError

/-- A call made to the identity provider, with its arguments. -/
inductive Call where
  | Validate (svid audience : String)
  | Fetch (identifier audience : String)
  deriving DecidableEq, Repr

/-- What a handler leaves behind: the response writer and the calls it made to
the identity provider, in order. -/
structure Outcome where
  w : ResponseWriter
  calls : List Call
  deriving DecidableEq, Repr

/-! ## Response helpers -/

def setIngressFailureResponse (w : ResponseWriter) : ResponseWriter :=
  (w.headerSet AuthStatusHeaderKey "failure").WriteHeader StatusForbidden

def setIngressSuccessResponse (w : ResponseWriter) : ResponseWriter :=
  (w.headerSet AuthStatusHeaderKey "success").WriteHeader StatusOK

def setEgressFailureResponse (w : ResponseWriter) : ResponseWriter :=
  w.WriteHeader StatusForbidden

def setEgressSuccessResponse (w : ResponseWriter) (jwtSVID : String) : ResponseWriter :=
  (w.headerSet JWTsvidHeaderKey (bearerStr ++ jwtSVID)).WriteHeader StatusOK

/-! ## The two directions -/

/-- Validates a JWT on the way into a service and ensures the origin of the
request is allowed to communicate with a service. -/
def ingressMode (jwtClient : JWTSVID) (c : Config) (w : ResponseWriter) (r : Request) :
    Outcome :=
  let jwtHeader := r.headerGet JWTsvidHeaderKey
  let parsed := parseJWTHeader jwtHeader
  let svid := parsed.1
  let hasSVID := parsed.2
  -- deny any request that doesn't include a JWT-SVID
  if !hasSVID then
    { w := setIngressFailureResponse w, calls := [] }
  else
    let validated := jwtClient.Validate svid c.GetIdentifier
    let jwtStatus := validated.1
    let subject := validated.2.1
    let err := validated.2.2
    let calls := [Call.Validate svid c.GetIdentifier]
    -- deny any request where there is an error validating the JWT-SVID
    if err.isSome then
      { w := setIngressFailureResponse w, calls := calls }
    -- deny any request that contains an invalid JWT-SVID
    else if !jwtStatus then
      { w := setIngressFailureResponse w, calls := calls }
    -- deny any request that originates from a disallowed spiffe id
    else if (c.GetIngressMapEntry subject).isNil then
      { w := setIngressFailureResponse w, calls := calls }
    else
      let result := (isPathAndMethodAllowed (c.GetIngressMapEntry subject) r.Method r.Path).1
      if result != true then
        { w := setIngressFailureResponse w, calls := calls }
      else
        -- if all the above checks pass the request is approved
        { w := setIngressSuccessResponse w, calls := calls }

/-- Fetches a JWT-SVID from spire-agent and injects the JWT on the way out of
a service. -/
def egressMode (jwtClient : JWTSVID) (c : Config) (w : ResponseWriter) (r : Request) :
    Outcome :=
  let jwtHeader := r.headerGet JWTsvidHeaderKey
  let hasSVID := (parseJWTHeader jwtHeader).2
  -- deny any request if it already contains a JWT-SVID, this may be a spoof attempt
  if hasSVID then
    { w := setEgressFailureResponse w, calls := [] }
  -- deny any request that does not contain a host header
  else if r.Host = "" then
    { w := setEgressFailureResponse w, calls := [] }
  else
    let egressAudience := c.GetEgressMapEntry r.Host
    -- deny any request without a matching spiffe id for the host header
    if egressAudience = "" then
      { w := setEgressFailureResponse w, calls := [] }
    else
      let fetched := jwtClient.Fetch c.GetIdentifier egressAudience
      let jwtSVID := fetched.1
      let err := fetched.2
      let calls := [Call.Fetch c.GetIdentifier egressAudience]
      -- deny any request that results in an error while fetching the JWT-SVID
      if err.isSome then
        { w := setEgressFailureResponse w, calls := calls }
      else
        -- the request is approved and the JWT-SVID is injected
        { w := setEgressSuccessResponse w jwtSVID, calls := calls }

/-! ## Words of the specification -/

/-- An ACL entry satisfies a request: its path is a literal prefix of the
request path and the request method is one of its methods. -/
def Satisfies (entry : ACL) (method path : String) : Prop :=
  entry.Path.data <+: path.data ∧ method ∈ entry.Methods.toList

/-- The test the loop body of `isPathAndMethodAllowed` makes on one entry. -/
def entryAllows (method path : String) (entry : ACL) : Bool :=
  HasPrefix path entry.Path && entry.Methods.toList.any (fun value => value == method)

/-- Whether some entry's path is a prefix of the request path. -/
def anyPathMatch (path : String) (acl : List ACL) : Bool :=
  acl.any (fun entry => HasPrefix path entry.Path)

/-! ## Fixtures of the handler tests -/

/-- The configuration of the handler tests, with both maps set. -/
def testConfig : Config :=
  { ready := true
    listener := "localhost:8080"
    scheme := "tcp"
    workloadSocketPath := "unix:///agent.sock"
    ingressMap := [("spiffe://goodsubject", Slice.of [⟨"/asdf", Slice.of ["GET"]⟩])]
    identifier := "spiffe://bogus/appname"
    egressMap := [("testhandler.blah.net", "spiffe://bogus/test")]
    dogstatsdHost := "localhost"
    dogstatsdPort := 28125
    dogstatsdEnabled := false
    healthCheckListener := "0.0.0.0:9191" }

/-- The test double of the identity provider: fixed answers. -/
def stubProvider (validated : Bool × String × GoError) (fetched : String × GoError) :
    JWTSVID :=
  { Validate := fun _ _ => validated, Fetch := fun _ _ => fetched }

/-- A request as the handler tests build it. -/
def testRequest (method path host : String) (header : List (String × String)) : Request :=
  { Method := method, Path := path, Host := host, Header := header }

/-! ## pkg/handlers: the request router -/

/-- An http handler that calls to the appropriate function depending on
direction of request flow; the second component is the returned `error`. -/
def AuthHandler (jwtClient : JWTSVID) (c : Config) (w : ResponseWriter) (r : Request) :
    Outcome × GoError :=
  let modeHeader := r.headerGet JWTModeHeader
  if modeHeader = "ingress" then
    (ingressMode jwtClient c w r, none)
  else if modeHeader = "egress" then
    (egressMode jwtClient c w r, none)
  else
    -- unknown mode
    ({ w := w.WriteHeader StatusPreconditionFailed, calls := [] }, none)

/-! ## pkg/config: building the configuration -/

def defaultListener : String := "unix:///run/emissary/sockets/auth.sock"
def defaultWorkloadSocketPath : String := "/tmp/agent.sock"
def defaultDogstatsdEnabled : Bool := false
def defaultDogstatsdHost : String := "localhost"
def defaultDogstatsdPort : Int := 28125
def defaultHealthCheckListener : String := "0.0.0.0:9191"

/-- The fields of `*url.URL` that `BuildConfig` reads. -/
structure URL where
  Scheme : String
  Host : String
  Path : String
  deriving DecidableEq, Repr

/-- The library functions `BuildConfig` calls, none of them part of this
repository: `url.Parse`, `idutil.ValidateSpiffeID(id, idutil.AllowAny())`,
`json.Valid`, `json.Unmarshal` into a fresh `map[string][]ACL` and into a fresh
`map[string]string` (the map afterwards and the returned error),
`strconv.Atoi`, `json.Marshal` of the two maps and `%v` of the two maps. -/
structure Lib where
  urlParse : String → URL × GoError
  ValidateSpiffeID : String → GoError
  jsonValid : String → Bool
  jsonUnmarshalIngress : String → List (String × Slice ACL) × GoError
  jsonUnmarshalEgress : String → List (String × String) × GoError
  Atoi : String → Int × GoError
  jsonMarshalIngress : List (String × Slice ACL) → String × GoError
  jsonMarshalEgress : List (String × String) → String × GoError
  fmtIngressMap : List (String × Slice ACL) → String
  fmtEgressMap : List (String × String) → String

/-- Go's `%v` of a `[]string`. -/
def fmtStrings (xs : Slice String) : String :=
  "[" ++ " ".intercalate xs.toList ++ "]"

/-- Go's `%v` of an `ACL`. -/
def fmtACL (entry : ACL) : String :=
  "\x7b" ++ entry.Path ++ " " ++ fmtStrings entry.Methods ++ "\x7d"

/-- Go's `%v` of a `[]ACL`. -/
def fmtACLs (value : Slice ACL) : String :=
  "[" ++ " ".intercalate (value.toList.map fmtACL) ++ "]"

/-- Go's `%v` of an `error`. -/
def fmtError (err : GoError) : String :=
  match err with
  | some msg => msg
  | none => "<nil>"

/-- Go's `%v` of an `int`. -/
def fmtInt (n : Int) : String := toString n

/-- The zero value `Config{}`. -/
def zeroConfig : Config :=
  { ready := false
    listener := ""
    scheme := ""
    workloadSocketPath := ""
    ingressMap := []
    identifier := ""
    egressMap := []
    dogstatsdHost := ""
    dogstatsdPort := 0
    dogstatsdEnabled := false
    healthCheckListener := "" }

def Config.GetReady (c : Config) : Bool := c.ready

/-- Make sure spiffe ids have the right format. -/
def validateSpiffeID (lib : Lib) (spiffeID : String) : Bool :=
  if (lib.ValidateSpiffeID spiffeID).isSome then false else true

/-- All ingress map entries need a identifier and an acl, each acl requires a
path and methods. -/
def validateIngressMapEntry (entry : ACL) : Bool × GoError :=
  let pathExists := entry.Path
  let methodsExists := entry.Methods
  let methodsSize := entry.Methods.len
  if pathExists = "" then
    (false, some "ingress map entry does not contain a path")
  else if methodsExists.isNil then
    (false, some "ingress map entry does not contain any methods")
  else if methodsSize = 0 then
    (false, some "ingress map entry does not contain any methods")
  else
    (true, none)

/-- The loop `for _, entry := range value` of `BuildConfig`: the error it
returns with, or `none` when it runs to its end. -/
def validateEntriesLoop (key : String) (value : Slice ACL) : List ACL → GoError
  | [] => none
  | entry :: rest =>
    if !(validateIngressMapEntry entry).1 then
      some ("failed trying to validate ingress map: " ++ key ++ " - " ++ fmtACLs value ++
        " " ++ fmtError (validateIngressMapEntry entry).2)
    else
      validateEntriesLoop key value rest

/-- The loop `for key, value := range ingressMap` of `BuildConfig`, visiting
the bindings in the order of the list: the error it returns with, or `none`. -/
def validateIngressMapLoop (lib : Lib) : List (String × Slice ACL) → GoError
  | [] => none
  | kv :: rest =>
    if !validateSpiffeID lib kv.1 then
      some ("failed trying to validate ingress spiffeID: " ++ kv.1)
    else if kv.2.len = 0 then
      some ("failed trying to validate ingress map, emtpy ACL: " ++ kv.1 ++ " - " ++
        fmtACLs kv.2)
    else
      match validateEntriesLoop kv.1 kv.2 kv.2.toList with
      | some err => some err
      | none => validateIngressMapLoop lib rest

/-- The loop `for _, value := range egressMap` of `BuildConfig`. -/
def validateEgressMapLoop (lib : Lib) : List (String × String) → GoError
  | [] => none
  | kv :: rest =>
    if !validateSpiffeID lib kv.2 then
      some ("failed trying to validate egress spiffeID: " ++ kv.2)
    else
      validateEgressMapLoop lib rest

/-- The locals of `BuildConfig` that are set before the dogstatsd block. -/
structure BuildLocals where
  listener : String
  scheme : String
  workloadSocketPath : String
  identifier : String
  ingressMap : List (String × Slice ACL)
  egressMap : List (String × String)

/-- `BuildConfig` from the health check listener to its end. -/
def BuildConfig.afterDogstatsd (lib : Lib) (getenv : String → String) (l : BuildLocals)
    (dogstatsdEnabled : Bool) (dogstatsdHost : String) (dogstatsdPort : Int) :
    Config × GoError :=
  let healthCheckListener :=
    if getenv "EMISSARY_HEALTH_CHECK_LISTENER" ≠ "" then
      getenv "EMISSARY_HEALTH_CHECK_LISTENER"
    else defaultHealthCheckListener
  -- convert the resulting ingress and egress config into json for logging the config
  if (lib.jsonMarshalIngress l.ingressMap).2.isSome then
    (zeroConfig, some ("failed trying to log ingress map: " ++ lib.fmtIngressMap l.ingressMap))
  else if (lib.jsonMarshalEgress l.egressMap).2.isSome then
    (zeroConfig, some ("failed trying to log egress map: " ++ lib.fmtEgressMap l.egressMap))
  else
    ({ ready := true
       listener := l.listener
       scheme := l.scheme
       workloadSocketPath := l.workloadSocketPath
       identifier := l.identifier
       ingressMap := l.ingressMap
       egressMap := l.egressMap
       dogstatsdHost := dogstatsdHost
       dogstatsdPort := dogstatsdPort
       dogstatsdEnabled := dogstatsdEnabled
       healthCheckListener := healthCheckListener }, none)

/-- `BuildConfig` from the dogstatsd block to its end. -/
def BuildConfig.afterEgress (lib : Lib) (getenv : String → String) (l : BuildLocals) :
    Config × GoError :=
  if getenv "DOGSTATSD_ENABLED" ≠ "" then
    if getenv "DOGSTATSD_ENABLED" = "true" then
      let dogstatsdHost :=
        if getenv "DOGSTATSD_HOST" ≠ "" then getenv "DOGSTATSD_HOST"
        else defaultDogstatsdHost
      if getenv "DOGSTATSD_PORT" ≠ "" then
        let parsed := lib.Atoi (getenv "DOGSTATSD_PORT")
        let dogstatsdPort := parsed.1
        if parsed.2.isSome then
          (zeroConfig,
            some ("failed trying to set up dogstatsd port: " ++ fmtInt dogstatsdPort))
        else
          BuildConfig.afterDogstatsd lib getenv l true dogstatsdHost dogstatsdPort
      else
        BuildConfig.afterDogstatsd lib getenv l true dogstatsdHost defaultDogstatsdPort
    else
      BuildConfig.afterDogstatsd lib getenv l defaultDogstatsdEnabled defaultDogstatsdHost
        defaultDogstatsdPort
  else
    BuildConfig.afterDogstatsd lib getenv l false defaultDogstatsdHost defaultDogstatsdPort

/-- `BuildConfig` from the egress map block to its end. -/
def BuildConfig.afterIngress (lib : Lib) (getenv : String → String) (l : BuildLocals) :
    Config × GoError :=
  if getenv "EMISSARY_EGRESS_MAP" ≠ "" then
    if !lib.jsonValid (getenv "EMISSARY_EGRESS_MAP") then
      (zeroConfig,
        some ("egress map is not valid json: " ++ getenv "EMISSARY_EGRESS_MAP"))
    else
      let egressMap := (lib.jsonUnmarshalEgress (getenv "EMISSARY_EGRESS_MAP")).1
      match validateEgressMapLoop lib egressMap with
      | some err => (zeroConfig, some err)
      | none => BuildConfig.afterEgress lib getenv { l with egressMap := egressMap }
  else
    BuildConfig.afterEgress lib getenv { l with egressMap := [] }

/-- `BuildConfig` from the workload socket path to its end. -/
def BuildConfig.afterListener (lib : Lib) (getenv : String → String)
    (scheme listener : String) : Config × GoError :=
  let workloadSocketPath :=
    if getenv "EMISSARY_SPIRE_SOCKET" ≠ "" then getenv "EMISSARY_SPIRE_SOCKET"
    else defaultWorkloadSocketPath
  let identifier := getenv "EMISSARY_IDENTIFIER"
  if identifier = "" then
    (zeroConfig, some "no service identifier configured, please set EMISSARY_IDENTIFIER")
  else if !validateSpiffeID lib identifier then
    (zeroConfig, some ("failed trying to validate audience spiffe id: " ++ identifier))
  else
    let l : BuildLocals :=
      { listener := listener, scheme := scheme, workloadSocketPath := workloadSocketPath,
        identifier := identifier, ingressMap := [], egressMap := [] }
    if getenv "EMISSARY_INGRESS_MAP" ≠ "" then
      if !lib.jsonValid (getenv "EMISSARY_INGRESS_MAP") then
        (zeroConfig,
          some ("ingress map is not valid json: " ++ getenv "EMISSARY_INGRESS_MAP"))
      else
        let ingressMap := (lib.jsonUnmarshalIngress (getenv "EMISSARY_INGRESS_MAP")).1
        match validateIngressMapLoop lib ingressMap with
        | some err => (zeroConfig, some err)
        | none => BuildConfig.afterIngress lib getenv { l with ingressMap := ingressMap }
    else
      BuildConfig.afterIngress lib getenv l

/-- Returns Config which contains all the data needed for running emissary.
`getenv` is `os.Getenv`. -/
def BuildConfig (lib : Lib) (getenv : String → String) : Config × GoError :=
  let listenerString :=
    if getenv "EMISSARY_LISTENER" ≠ "" then getenv "EMISSARY_LISTENER" else defaultListener
  let parsed := lib.urlParse listenerString
  let uri := parsed.1
  if parsed.2.isSome then
    (zeroConfig, some ("failed to parse listener uri: " ++ listenerString))
  else if uri.Scheme = "unix" then
    BuildConfig.afterListener lib getenv uri.Scheme uri.Path
  else if uri.Scheme = "tcp" then
    BuildConfig.afterListener lib getenv uri.Scheme uri.Host
  else
    (zeroConfig, some ("unknown listener scheme: " ++ uri.Scheme))

/-! ## Fixtures of the config tests -/

/-- The environment in which exactly the given variables are set. -/
def envOf (vars : List (String × String)) : String → String :=
  fun name => mapIndex vars "" name

/-- The ingress map of `TestGoodTcpBuildConfig`, as written. -/
def goodIngressSource : String :=
  "\x7b\"spiffe://bogus/app1\":[\x7b\"path\":\"/asdf/123\", \"methods\":[\"GET\"]\x7d],  \"spiffe://bogus/app3\":[\x7b\"path\":\"/test/1\",\"methods\":[\"GET\",\"POST\"]\x7d, \x7b\"path\":\"/test/2\",\"methods\":[\"POST\",\"GET\"]\x7d]\x7d"

/-- The ingress map of `TestInvalidEgressMapJSON2`: a top-level array. -/
def arrayIngressSource : String := "[\x7b\"spiffe://bogus/asdf\":[]\x7d]"

/-- The ingress map of `TestInvalidIngressMap2`: a number where a list belongs. -/
def numberIngressSource : String := "\x7b\"spiffe://bogus/asdf\": 123\x7d"

/-- The egress map of the config tests. -/
def goodEgressSource : String := "\x7b\"test.blah.net\":\"spiffe://bogus/test\"\x7d"

/-- What `json.Unmarshal` leaves in a fresh ingress map, and the error it
returns, for the sources of the config tests. -/
def decodeIngress (source : String) : List (String × Slice ACL) × GoError :=
  if source = goodIngressSource then
    ([("spiffe://bogus/app1", Slice.of [⟨"/asdf/123", Slice.of ["GET"]⟩]),
      ("spiffe://bogus/app3", Slice.of [⟨"/test/1", Slice.of ["GET", "POST"]⟩,
        ⟨"/test/2", Slice.of ["POST", "GET"]⟩])], none)
  else if source = arrayIngressSource then
    ([], some "json: cannot unmarshal array into Go value of type map[string][]config.ACL")
  else if source = numberIngressSource then
    ([("spiffe://bogus/asdf", Slice.nil)],
      some ("json: cannot unmarshal number into Go value of type []config.ACL"))
  else
    ([], some "unexpected end of JSON input")

/-- What `json.Unmarshal` leaves in a fresh egress map, and the error it
returns, for the sources of the config tests. -/
def decodeEgress (source : String) : List (String × String) × GoError :=
  if source = goodEgressSource then
    ([("test.blah.net", "spiffe://bogus/test")], none)
  else if source = arrayIngressSource then
    ([], some "json: cannot unmarshal array into Go value of type map[string]string")
  else
    ([], some "unexpected end of JSON input")

/-- A stand-in for the library that answers as the library does on the inputs
of the config tests: listeners of the forms `unix://path` and `tcp://host`,
SPIFFE IDs made of letters, digits and slashes, the four JSON sources above,
decimal ports. -/
def testLib : Lib :=
  { urlParse := fun s =>
      if HasPrefix s "unix://" then
        ({ Scheme := "unix", Host := "", Path := TrimPrefix s "unix://" }, none)
      else if HasPrefix s "tcp://" then
        ({ Scheme := "tcp", Host := TrimPrefix s "tcp://", Path := "" }, none)
      else
        ({ Scheme := "", Host := "", Path := s }, none)
    ValidateSpiffeID := fun s =>
      if HasPrefix s "spiffe://" &&
          (TrimPrefix s "spiffe://").data.all (fun ch => ch.isAlphanum || ch == '/') &&
          (TrimPrefix s "spiffe://") != "" then none
      else some "invalid SPIFFE ID"
    jsonValid := fun s =>
      s == goodIngressSource || s == arrayIngressSource || s == numberIngressSource ||
        s == goodEgressSource
    jsonUnmarshalIngress := decodeIngress
    jsonUnmarshalEgress := decodeEgress
    Atoi := fun s =>
      match s.toInt? with
      | some n => (n, none)
      | none => (0, some ("strconv.Atoi: parsing \"" ++ s ++ "\": invalid syntax"))
    jsonMarshalIngress := fun _ => ("", none)
    jsonMarshalEgress := fun _ => ("", none)
    fmtIngressMap := fun _ => "map[]"
    fmtEgressMap := fun _ => "map[]" }

/-- The environment of `TestGoodTcpBuildConfig`, without the dogstatsd part. -/
def goodEnv : String → String :=
  envOf [("EMISSARY_LISTENER", "tcp://localhost:8080"),
    ("EMISSARY_SPIRE_SOCKET", "unix:///agent.sock"),
    ("EMISSARY_IDENTIFIER", "spiffe://bogus/appname"),
    ("EMISSARY_INGRESS_MAP", goodIngressSource),
    ("EMISSARY_EGRESS_MAP", goodEgressSource)]

/-- An environment whose ingress map is a top-level JSON array. -/
def arrayIngressEnv : String → String :=
  envOf [("EMISSARY_IDENTIFIER", "spiffe://bogus/test123"),
    ("EMISSARY_INGRESS_MAP", arrayIngressSource)]

/-- An environment whose egress map is a top-level JSON array. -/
def arrayEgressEnv : String → String :=
  envOf [("EMISSARY_IDENTIFIER", "spiffe://bogus/test123"),
    ("EMISSARY_EGRESS_MAP", arrayIngressSource)]

/-- The ingress map `BuildConfig` validates: what `json.Unmarshal` left in the
map when EMISSARY_INGRESS_MAP is set, the empty map otherwise. -/
def decodedIngressMap (lib : Lib) (getenv : String → String) : List (String × Slice ACL) :=
  if getenv "EMISSARY_INGRESS_MAP" = "" then []
  else (lib.jsonUnmarshalIngress (getenv "EMISSARY_INGRESS_MAP")).1

/-- The egress map `BuildConfig` validates. -/
def decodedEgressMap (lib : Lib) (getenv : String → String) : List (String × String) :=
  if getenv "EMISSARY_EGRESS_MAP" = "" then []
  else (lib.jsonUnmarshalEgress (getenv "EMISSARY_EGRESS_MAP")).1

/-- A result of (a part of) `BuildConfig`: a ready Config built from the
locals with no error, or the zero Config with an error. -/
def BuildResult (l : BuildLocals) (res : Config × GoError) : Prop :=
  (res.2 = none ∧ res.1.ready = true ∧ res.1.identifier = l.identifier ∧
    res.1.ingressMap = l.ingressMap ∧ res.1.egressMap = l.egressMap) ∨
  (res.1 = zeroConfig ∧ res.2 ≠ none)

/-! ## pkg/handlers: the health check -/

def StatusInternalServerError : Nat := 500
def StatusServiceUnavailable : Nat := 503

/-- The interface `spire.HealthCheck`: what the one call of `RunCheck` answers. -/
structure HealthCheck where
  RunCheck : Bool × GoError

/-- What `HealthHandler` leaves behind: the response writer and the body
written to it. -/
structure HealthOutcome where
  w : ResponseWriter
  body : String
  deriving DecidableEq, Repr

/-- An http handler that is used for health checking emissary, it makes a call
to spire-agent to ensure it is responding; the second component is the returned
`error`. -/
def HealthHandler (h : HealthCheck) (w : ResponseWriter) (_r : Request) :
    HealthOutcome × GoError :=
  let checked := h.RunCheck
  let healthy := checked.1
  let err := checked.2
  -- spire-agent is unavailable in some way
  if !healthy then
    ({ w := w.WriteHeader StatusServiceUnavailable, body := "spire-agent is unhealthy\n" },
      none)
  -- there was some sort of error communicating with spire-agent
  else if err.isSome then
    ({ w := w.WriteHeader StatusInternalServerError,
       body := "contacting spire-agent had an error\n" }, none)
  else
    -- all clear
    ({ w := w.WriteHeader StatusOK, body := "emissary and spire-agent are live\n" }, none)

/-! ## pkg/spire -/

/-- One element of `workload.JWTSVIDResponse.Svids`. -/
structure WorkloadSVID where
  SpiffeId : String
  Svid : String
  deriving DecidableEq, Repr

/-- The message `workload.JWTSVIDResponse`. -/
structure JWTSVIDResponse where
  Svids : List WorkloadSVID
  deriving DecidableEq, Repr

/-- The message `workload.JWTSVIDRequest`. -/
structure JWTSVIDRequest where
  Audience : List String
  SpiffeId : String
  deriving DecidableEq, Repr

/-- The message `workload.ValidateJWTSVIDRequest`. -/
structure ValidateJWTSVIDRequest where
  Audience : String
  Svid : String
  deriving DecidableEq, Repr

/-- The field `Kind` of a `structpb.Value`; only the payload of a string value
is read. -/
inductive ValueKind where
  | unset
  | NullValue
  | NumberValue
  | StringValue (StringValue : String)
  | BoolValue
  | StructValue
  | ListValue
  deriving DecidableEq, Repr

/-- The message `workload.ValidateJWTSVIDResponse`; `Claims` lists the fields
of the claims struct (none for a nil struct). -/
structure ValidateJWTSVIDResponse where
  SpiffeId : String
  Claims : List (String × ValueKind)
  deriving DecidableEq, Repr

/-- An error returned by the workload API client: its `Error()` text and, when
`status.FromError` recognises it, the code and message of its gRPC status. -/
structure ClientError where
  Error : String
  status : Option (Nat × String)
  deriving DecidableEq, Repr

/-- The gRPC code `codes.InvalidArgument`. -/
def codesInvalidArgument : Nat := 3

/-- The two methods of `workload.SpiffeWorkloadAPIClient` that emissary calls:
what one call answers. -/
structure SpiffeWorkloadAPIClient where
  FetchJWTSVID : JWTSVIDRequest → JWTSVIDResponse × Option ClientError
  ValidateJWTSVID : ValidateJWTSVIDRequest → ValidateJWTSVIDResponse × Option ClientError

/-- The struct that carries the data needed to communicate with spire-agent in
the http handler. -/
structure AuthClient where
  Ready : Bool
  spiffeClient : SpiffeWorkloadAPIClient

def getSubject (response : ValidateJWTSVIDResponse) : String × GoError :=
  match response.Claims.lookup "sub" with
  | none => ("", some "jwt missing subject claim")
  | some (ValueKind.StringValue subject) => (subject, none)
  | some _ => ("", some "jwt subject claim not a string")

def getSVID (jwtsvid : JWTSVIDResponse) : String × GoError :=
  if jwtsvid.Svids.length ≠ 1 then
    ("", some ("expecting 1 svid in jwt-svid response. found " ++
      toString jwtsvid.Svids.length))
  else
    ((jwtsvid.Svids.head?.map (fun svid => svid.Svid)).getD "", none)

/-- A wrapper around the spiffe client's FetchJWTSVID method. -/
def AuthClient.fetchJWTSVIDViaWorkloadAPI (s : AuthClient) (spiffeID egressAudience : String) :
    String × GoError :=
  let jwtRequest : JWTSVIDRequest := { Audience := [egressAudience], SpiffeId := spiffeID }
  let fetched := s.spiffeClient.FetchJWTSVID jwtRequest
  match fetched.2 with
  | some err =>
    ("", some ("spiffe client failed to fetch jwt-svid from spire-agent: " ++ err.Error))
  | none =>
    let parsed := getSVID fetched.1
    match parsed.2 with
    | some err =>
      ("", some ("failed to parse jwt-svid response from spire-agent: " ++ err))
    | none => (parsed.1, none)

/-- A wrapper around the spiffe client's ValidateJWTSVID method. `sprintf` is
`fmt.Sprintf` applied to a format string without arguments. -/
def AuthClient.validateJWTSVIDViaWorkloadAPI (sprintf : String → String) (s : AuthClient)
    (svid identifier : String) : String × GoError :=
  let jwtRequest : ValidateJWTSVIDRequest := { Audience := identifier, Svid := svid }
  let validated := s.spiffeClient.ValidateJWTSVID jwtRequest
  match validated.2 with
  | some err =>
    -- unwrap invalid argument error
    match err.status with
    | some st =>
      if st.1 = codesInvalidArgument then ("", some (sprintf st.2))
      else ("", some err.Error)
    | none => ("", some err.Error)
  | none =>
    let parsed := getSubject validated.1
    match parsed.2 with
    | some err => ("", some err)
    | none => (parsed.1, none)

/-- Uses AuthClient to fetch JWT-SVIDs from spire-agent, returns a JWT-SVID. -/
def AuthClient.Fetch (s : AuthClient) (spiffeID egressAudience : String) : String × GoError :=
  let fetched := s.fetchJWTSVIDViaWorkloadAPI spiffeID egressAudience
  match fetched.2 with
  | some err => ("", some ("bad fetch from workload api: " ++ err))
  | none => (fetched.1, none)

/-- Uses AuthClient to validate JWT-SVIDs with spire-agent, also returns
subject contained in the JWT-SVID. -/
def AuthClient.Validate (sprintf : String → String) (s : AuthClient)
    (svid identifier : String) : Bool × String × GoError :=
  let validated := s.validateJWTSVIDViaWorkloadAPI sprintf svid identifier
  match validated.2 with
  | some err => (false, "", some ("invalid jwt signature: " ++ err))
  | none => (true, validated.1, none)

/-- The real provider client seen through the interface `spire.JWTSVID`. -/
def AuthClient.toJWTSVID (sprintf : String → String) (s : AuthClient) : JWTSVID :=
  { Validate := fun svid identifier => s.Validate sprintf svid identifier
    Fetch := fun spiffeID egressAudience => s.Fetch spiffeID egressAudience }

/-- Two ACL lists that differ at most in the order of the methods inside
their entries. -/
def SameUpToMethodOrder (acl acl' : Slice ACL) : Prop :=
  List.Forall₂ (fun entry entry' : ACL =>
    entry.Path = entry'.Path ∧ entry.Methods.toList.Perm entry'.Methods.toList)
    acl.toList acl'.toList

/-- The environment of `TestBadDogPortBuildConfig`. -/
def badPortEnv : String → String :=
  envOf [("EMISSARY_LISTENER", "unix:///test123.sock"),
    ("EMISSARY_SPIRE_SOCKET", "unix:///agent.sock"),
    ("EMISSARY_IDENTIFIER", "spiffe://bogus/appname"),
    ("DOGSTATSD_ENABLED", "true"),
    ("DOGSTATSD_PORT", "asdf")]

/-- A stand-in for `strconv.Atoi` on the ports of the config tests: a
numeral of decimal digits gives its value, anything else the value 0 and a
syntax error. -/
def atoiDecimal (s : String) : Int × GoError :=
  if s.data ≠ [] ∧ s.data.all Char.isDigit = true then
    (Int.ofNat (s.data.foldl (fun n ch => 10 * n + (ch.toNat - 48)) 0), none)
  else
    (0, some ("strconv.Atoi: parsing \"" ++ s ++ "\": invalid syntax"))

/-- The stand-in library with `atoiDecimal` for `strconv.Atoi`. -/
def portLib : Lib := { testLib with Atoi := atoiDecimal }

/-- A second configuration: the identifier and the ACL list of
`spiffe://goodsubject` are those of `testConfig`, everything else differs. -/
def otherConfig : Config :=
  { ready := true
    listener := "/run/emissary/sockets/auth.sock"
    scheme := "unix"
    workloadSocketPath := "/tmp/agent.sock"
    ingressMap := [("spiffe://bogus/app1", Slice.of [⟨"/", Slice.of ["GET", "POST"]⟩]),
      ("spiffe://goodsubject", Slice.of [⟨"/asdf", Slice.of ["GET"]⟩])]
    identifier := "spiffe://bogus/appname"
    egressMap := []
    dogstatsdHost := "host123"
    dogstatsdPort := 10000
    dogstatsdEnabled := true
    healthCheckListener := "0.0.0.0:9191" }

/-- The configuration of the handler tests with the egress host mapped to
the empty string. -/
def emptyTargetConfig : Config :=
  { testConfig with egressMap := [("testhandler.blah.net", "")] }

/-! ## The ingress map source -/

/-- An ingress map source of the declared shape, read from left to right: the
members of the JSON object in source order, each an identity with its array of
ACL entries in source order, each entry with its path and its array of methods
in source order. -/
abbrev IngressSource := List (String × List (String × List String))

/-- The ACL entry a source entry denotes: its path and its methods in source
order. -/
def sourceACL (entry : String × List String) : ACL :=
  { Path := entry.1, Methods := Slice.of entry.2 }

/-- The ACL entries the source gives an identity: those of the last member
with that name, in the order of its array; nil when no member has that name. -/
def sourceEntries (src : IngressSource) (id : String) : Slice ACL :=
  match src.reverse.lookup id with
  | none => Slice.nil
  | some entries => Slice.of (entries.map sourceACL)

/-- Go's `m[key] = value`: the binding of `key` is replaced where it stands,
a new key is added at the end. -/
def mapStore {β : Type} (m : List (String × β)) (key : String) (value : β) :
    List (String × β) :=
  if m.any (fun kv => kv.1 == key) then
    m.map (fun kv => if kv.1 == key then (key, value) else kv)
  else
    m ++ [(key, value)]

/-- Go's `json.Unmarshal` into a fresh `map[string][]ACL` on a source of the
declared shape: the members are decoded from left to right, each array into a
slice with its elements in array order, and stored under the name of the
member. -/
def unmarshalIngressSource (src : IngressSource) : List (String × Slice ACL) :=
  src.foldl (fun m member => mapStore m member.1 (Slice.of (member.2.map sourceACL))) []

/-- The ingress map of `TestGoodTcpBuildConfig`, as the object it denotes. -/
def goodIngressObject : IngressSource :=
  [("spiffe://bogus/app1", [("/asdf/123", ["GET"])]),
    ("spiffe://bogus/app3", [("/test/1", ["GET", "POST"]), ("/test/2", ["POST", "GET"])])]

/-! ## Lemmas on strings and the matcher -/

theorem HasPrefix_iff (s pre : String) : HasPrefix s pre = true ↔ pre.data <+: s.data := by
  unfold HasPrefix
  exact List.isPrefixOf_iff_prefix

theorem entryAllows_iff (method path : String) (entry : ACL) :
    entryAllows method path entry = true ↔ Satisfies entry method path := by
  unfold entryAllows Satisfies
  rw [Bool.and_eq_true, HasPrefix_iff, List.any_eq_true]
  constructor
  · rintro ⟨h1, v, hv, hvm⟩
    have : v = method := by simpa using hvm
    exact ⟨h1, this ▸ hv⟩
  · rintro ⟨h1, h2⟩
    exact ⟨h1, method, h2, by simp⟩

/-- The loop computes the first index whose entry passes the test, shifted by
the start index; without such an entry it reports the two diagnostics. -/
theorem isPathAndMethodAllowedLoop_eq (method path : String) (acl : List ACL) :
    ∀ (aclIndex : Nat) (pathMatch : Bool) (methMatch : String),
      isPathAndMethodAllowedLoop method path acl aclIndex pathMatch methMatch =
        if acl.findIdx (entryAllows method path) < acl.length then
          (true, aclIndex + acl.findIdx (entryAllows method path), none)
        else
          (false, 65535,
            some ("no matching ACL: path match: " ++
              fmtBool (pathMatch || anyPathMatch path acl) ++ ", method match: " ++
              (if anyPathMatch path acl then "false" else methMatch))) := by
  induction acl with
  | nil => intro k pm mm; simp [isPathAndMethodAllowedLoop, anyPathMatch]
  | cons entry rest ih =>
    intro k pm mm
    rw [isPathAndMethodAllowedLoop, List.findIdx_cons]
    by_cases hp : HasPrefix path entry.Path = true
    · by_cases hm : entry.Methods.toList.any (fun value => value == method) = true
      · simp [entryAllows, hp, hm]
      · have hm' : entry.Methods.toList.any (fun value => value == method) = false :=
          Bool.eq_false_iff.mpr hm
        rw [if_pos hp, if_neg hm, ih]
        simp [entryAllows, hp, hm', anyPathMatch, Nat.add_assoc, Nat.add_comm 1]
    · have hp' : HasPrefix path entry.Path = false := Bool.eq_false_iff.mpr hp
      rw [if_neg hp, ih]
      simp [entryAllows, hp', anyPathMatch, Nat.add_assoc, Nat.add_comm 1]

/-- The matcher, read off the loop: first passing index or the diagnostics. -/
theorem isPathAndMethodAllowed_eq (acl : Slice ACL) (method path : String) :
    isPathAndMethodAllowed acl method path =
      if acl.toList.findIdx (entryAllows method path) < acl.toList.length then
        (true, acl.toList.findIdx (entryAllows method path), none)
      else
        (false, 65535,
          some ("no matching ACL: path match: " ++
            fmtBool (anyPathMatch path acl.toList) ++ ", method match: " ++
            (if anyPathMatch path acl.toList then "false" else "unknown"))) := by
  unfold isPathAndMethodAllowed
  rw [isPathAndMethodAllowedLoop_eq]
  simp

theorem isPathAndMethodAllowed_true_iff (acl : Slice ACL) (method path : String) :
    (isPathAndMethodAllowed acl method path).1 = true ↔
      ∃ entry ∈ acl.toList, Satisfies entry method path := by
  rw [isPathAndMethodAllowed_eq]
  by_cases h : acl.toList.findIdx (entryAllows method path) < acl.toList.length
  · rw [if_pos h]
    have h2 := List.findIdx_lt_length.mp h
    obtain ⟨e, he, hpe⟩ := h2
    exact ⟨fun _ => ⟨e, he, (entryAllows_iff method path e).mp hpe⟩, fun _ => rfl⟩
  · rw [if_neg h]
    constructor
    · intro hf
      exact absurd hf (by simp)
    · rintro ⟨e, he, hs⟩
      exact absurd (List.findIdx_lt_length.mpr
        ⟨e, he, (entryAllows_iff method path e).mpr hs⟩) h

/-! ## Lemmas on the header parser and the handlers -/

theorem HasPrefix_append (pre t : String) : HasPrefix (pre ++ t) pre = true := by
  rw [HasPrefix_iff, String.data_append]
  exact List.prefix_append _ _

theorem HasPrefix_iff_exists (s pre : String) :
    HasPrefix s pre = true ↔ ∃ t : String, s = pre ++ t := by
  constructor
  · intro h
    obtain ⟨rest, hrest⟩ := (HasPrefix_iff s pre).mp h
    refine ⟨String.mk rest, ?_⟩
    apply String.ext
    rw [String.data_append, hrest]
  · rintro ⟨t, rfl⟩
    exact HasPrefix_append pre t

theorem TrimPrefix_append (pre t : String) : TrimPrefix (pre ++ t) pre = t := by
  unfold TrimPrefix
  rw [if_pos (HasPrefix_append pre t)]
  apply String.ext
  simp [String.data_append]

/-- A header with the scheme prefix parses to the rest of the header. -/
theorem parseJWTHeader_bearer (t : String) : parseJWTHeader (bearerStr ++ t) = (t, true) := by
  unfold parseJWTHeader
  simp only [TrimPrefix_append]
  have hne : ¬ t = bearerStr ++ t := by
    intro h
    have hl := congrArg String.length h
    rw [String.length_append] at hl
    have hb : bearerStr.length = 7 := by decide
    omega
  rw [if_neg hne]

/-- A header without the scheme prefix carries no token. -/
theorem parseJWTHeader_no_bearer (header : String)
    (h : HasPrefix header bearerStr = false) : parseJWTHeader header = ("", false) := by
  unfold parseJWTHeader TrimPrefix
  simp [h]

theorem parseJWTHeader_snd (header : String) :
    (parseJWTHeader header).2 = HasPrefix header bearerStr := by
  cases h : HasPrefix header bearerStr
  · rw [parseJWTHeader_no_bearer header h]
  · obtain ⟨t, rfl⟩ := (HasPrefix_iff_exists header bearerStr).mp h
    rw [parseJWTHeader_bearer]

/-- The branches of `ingressMode` collapsed into one decision. -/
theorem ingressMode_eq (jwtClient : JWTSVID) (c : Config) (w : ResponseWriter) (r : Request) :
    ingressMode jwtClient c w r =
      if (parseJWTHeader (r.headerGet JWTsvidHeaderKey)).2 = false then
        { w := setIngressFailureResponse w, calls := [] }
      else if
        (jwtClient.Validate (parseJWTHeader (r.headerGet JWTsvidHeaderKey)).1
            c.GetIdentifier).2.2 = none ∧
        (jwtClient.Validate (parseJWTHeader (r.headerGet JWTsvidHeaderKey)).1
            c.GetIdentifier).1 = true ∧
        (c.GetIngressMapEntry (jwtClient.Validate
            (parseJWTHeader (r.headerGet JWTsvidHeaderKey)).1 c.GetIdentifier).2.1).isNil
          = false ∧
        (isPathAndMethodAllowed (c.GetIngressMapEntry (jwtClient.Validate
            (parseJWTHeader (r.headerGet JWTsvidHeaderKey)).1 c.GetIdentifier).2.1)
          r.Method r.Path).1 = true then
        { w := setIngressSuccessResponse w,
          calls := [Call.Validate (parseJWTHeader (r.headerGet JWTsvidHeaderKey)).1
            c.GetIdentifier] }
      else
        { w := setIngressFailureResponse w,
          calls := [Call.Validate (parseJWTHeader (r.headerGet JWTsvidHeaderKey)).1
            c.GetIdentifier] } := by
  unfold ingressMode
  simp only []
  split_ifs <;> simp_all

/-- The branches of `egressMode` collapsed into one decision. -/
theorem egressMode_eq (jwtClient : JWTSVID) (c : Config) (w : ResponseWriter) (r : Request) :
    egressMode jwtClient c w r =
      if (parseJWTHeader (r.headerGet JWTsvidHeaderKey)).2 = true ∨ r.Host = "" ∨
          c.GetEgressMapEntry r.Host = "" then
        { w := setEgressFailureResponse w, calls := [] }
      else if (jwtClient.Fetch c.GetIdentifier (c.GetEgressMapEntry r.Host)).2 = none then
        { w := setEgressSuccessResponse w
            (jwtClient.Fetch c.GetIdentifier (c.GetEgressMapEntry r.Host)).1,
          calls := [Call.Fetch c.GetIdentifier (c.GetEgressMapEntry r.Host)] }
      else
        { w := setEgressFailureResponse w,
          calls := [Call.Fetch c.GetIdentifier (c.GetEgressMapEntry r.Host)] } := by
  unfold egressMode
  simp only []
  split_ifs <;> simp_all

theorem setIngressFailureResponse_fresh :
    setIngressFailureResponse ResponseWriter.fresh =
      { header := [(AuthStatusHeaderKey, "failure")], code := some 403 } := rfl

theorem setIngressSuccessResponse_fresh :
    setIngressSuccessResponse ResponseWriter.fresh =
      { header := [(AuthStatusHeaderKey, "success")], code := some 200 } := rfl

theorem setEgressFailureResponse_fresh :
    setEgressFailureResponse ResponseWriter.fresh = { header := [], code := some 403 } := rfl

theorem setEgressSuccessResponse_fresh (jwtSVID : String) :
    setEgressSuccessResponse ResponseWriter.fresh jwtSVID =
      { header := [(JWTsvidHeaderKey, bearerStr ++ jwtSVID)], code := some 200 } := rfl

/-! ## The ACL matcher: first match wins -/

/-- C1: when `isPathAndMethodAllowed` returns `(true, i, nil)`, the index `i`
lies inside the list, the entry at `i` has a path that is a literal prefix of
the request path and lists the request method, and no entry at a lower index
satisfies both conditions (an earlier entry that matched the path only does not
stop the scan). -/
theorem isPathAndMethodAllowed_lowest_index (acl : Slice ACL) (method path : String)
    (i : Nat) (h : isPathAndMethodAllowed acl method path = (true, i, none)) :
    i < acl.len ∧
      (∃ entry, acl.toList[i]? = some entry ∧ entry.Path.data <+: path.data ∧
        method ∈ entry.Methods.toList) ∧
      ∀ (j : Nat) (entry : ACL), j < i → acl.toList[j]? = some entry →
        ¬ (entry.Path.data <+: path.data ∧ method ∈ entry.Methods.toList) := by
  rw [isPathAndMethodAllowed_eq] at h
  by_cases hlt : acl.toList.findIdx (entryAllows method path) < acl.toList.length
  · rw [if_pos hlt] at h
    have hi : acl.toList.findIdx (entryAllows method path) = i := by
      have := congrArg (fun t => t.2.1) h
      simpa using this
    subst hi
    refine ⟨hlt, ⟨acl.toList[acl.toList.findIdx (entryAllows method path)], ?_, ?_⟩, ?_⟩
    · exact List.getElem?_eq_getElem hlt
    · exact (entryAllows_iff method path _).mp (List.findIdx_getElem (w := hlt))
    · intro j entry hj hje hsat
      have hjl : j < acl.toList.length := Nat.lt_trans hj hlt
      have hne := List.not_of_lt_findIdx hj
      rw [List.getElem?_eq_getElem hjl] at hje
      have hje' : acl.toList[j] = entry := Option.some.inj hje
      rw [hje'] at hne
      have := (entryAllows_iff method path entry).mpr hsat
      rw [hne] at this
      exact absurd this (by simp)
  · rw [if_neg hlt] at h
    have := congrArg (fun t => t.1) h
    exact absurd this (by simp)

/-- The specification's own example: the third entry matches the path only,
the scan goes on and the fourth entry is returned. -/
theorem isPathAndMethodAllowed_lowest_index_witness :
    3 < (Slice.of [⟨"/pathx", .of ["GET"]⟩, ⟨"/pathy", .of ["OPTIONS"]⟩,
        ⟨"/", .of ["PUT"]⟩, ⟨"/path", .of ["PATCH", "GET"]⟩] : Slice ACL).len ∧
      (∃ entry, (Slice.of [⟨"/pathx", .of ["GET"]⟩, ⟨"/pathy", .of ["OPTIONS"]⟩,
        ⟨"/", .of ["PUT"]⟩, ⟨"/path", .of ["PATCH", "GET"]⟩] : Slice ACL).toList[3]? =
          some entry ∧ entry.Path.data <+: "/pathasdf".data ∧
        "PATCH" ∈ entry.Methods.toList) ∧
      ∀ (j : Nat) (entry : ACL), j < 3 →
        (Slice.of [⟨"/pathx", .of ["GET"]⟩, ⟨"/pathy", .of ["OPTIONS"]⟩,
          ⟨"/", .of ["PUT"]⟩, ⟨"/path", .of ["PATCH", "GET"]⟩] : Slice ACL).toList[j]? =
            some entry →
        ¬ (entry.Path.data <+: "/pathasdf".data ∧ "PATCH" ∈ entry.Methods.toList) :=
  isPathAndMethodAllowed_lowest_index
    (Slice.of [⟨"/pathx", .of ["GET"]⟩, ⟨"/pathy", .of ["OPTIONS"]⟩,
      ⟨"/", .of ["PUT"]⟩, ⟨"/path", .of ["PATCH", "GET"]⟩])
    "PATCH" "/pathasdf" 3 (by decide)

/-- C2: `isPathAndMethodAllowed` returns true exactly when some index holds an
entry whose path is a prefix of the request path and whose methods contain the
request method; entries that match the path only do not end the scan. -/
theorem isPathAndMethodAllowed_iff_exists (acl : Slice ACL) (method path : String) :
    (isPathAndMethodAllowed acl method path).1 = true ↔
      ∃ (i : Nat) (entry : ACL), acl.toList[i]? = some entry ∧
        entry.Path.data <+: path.data ∧ method ∈ entry.Methods.toList := by
  rw [isPathAndMethodAllowed_true_iff]
  constructor
  · rintro ⟨entry, hmem, hsat⟩
    obtain ⟨i, hi⟩ := List.getElem?_of_mem hmem
    exact ⟨i, entry, hi, hsat⟩
  · rintro ⟨i, entry, hi, hsat⟩
    exact ⟨entry, List.getElem?_mem hi, hsat⟩

/-! ## The two verdicts -/

theorem string_append_left_cancel (a b c : String) (h : a ++ b = a ++ c) : b = c := by
  apply String.ext
  have := congrArg String.data h
  rw [String.data_append, String.data_append] at this
  exact List.append_cancel_left this

theorem lookup_isSome_of_mapIndex_not_nil (m : List (String × Slice ACL)) (key : String)
    (h : (mapIndex m Slice.nil key).isNil = false) : ∃ acl, m.lookup key = some acl := by
  unfold mapIndex at h
  cases hl : m.lookup key with
  | none => rw [hl] at h; exact absurd h (by simp [Slice.isNil])
  | some acl => exact ⟨acl, rfl⟩

theorem mem_of_lookup_eq_some (m : List (String × String)) (key value : String)
    (h : m.lookup key = some value) : (key, value) ∈ m := by
  induction m with
  | nil => simp at h
  | cons kv rest ih =>
    obtain ⟨k, v⟩ := kv
    rw [List.lookup_cons] at h
    by_cases hk : key == k
    · rw [hk] at h
      have hkv : key = k := by simpa using hk
      have hv : v = value := by simpa using h
      subst hkv; subst hv
      exact List.mem_cons_self _ _
    · have hk' : (key == k) = false := Bool.eq_false_iff.mpr hk
      rw [hk'] at h
      exact List.mem_cons_of_mem _ (ih h)

/-- C3: an ingress request is answered with status 200 exactly when the
x-emissary-auth value is `"bearer "` followed by a token `t`, `Validate` answers
`(true, s, nil)` for `t` and the own identifier, `s` is a key of the ingress map
and the ACL matcher accepts the request for the entry of `s`; in every other
case the answer is status 403. -/
theorem ingressMode_allow_iff (jwtClient : JWTSVID) (c : Config) (r : Request) :
    ((ingressMode jwtClient c ResponseWriter.fresh r).w.code = some 200 ↔
      ∃ t s : String, r.headerGet JWTsvidHeaderKey = bearerStr ++ t ∧
        jwtClient.Validate t c.GetIdentifier = (true, s, none) ∧
        (∃ acl, c.ingressMap.lookup s = some acl) ∧
        (isPathAndMethodAllowed (c.GetIngressMapEntry s) r.Method r.Path).1 = true) ∧
    ((ingressMode jwtClient c ResponseWriter.fresh r).w.code = some 200 ∨
      (ingressMode jwtClient c ResponseWriter.fresh r).w.code = some 403) := by
  rw [ingressMode_eq, setIngressFailureResponse_fresh, setIngressSuccessResponse_fresh]
  by_cases hp : (parseJWTHeader (r.headerGet JWTsvidHeaderKey)).2 = false
  · rw [if_pos hp]
    refine ⟨⟨fun h => absurd h (by simp), ?_⟩, Or.inr rfl⟩
    rintro ⟨t, s, hh, -⟩
    rw [hh, parseJWTHeader_bearer] at hp
    exact absurd hp (by simp)
  · rw [if_neg hp]
    have hp' : HasPrefix (r.headerGet JWTsvidHeaderKey) bearerStr = true := by
      rw [parseJWTHeader_snd] at hp
      simpa using hp
    obtain ⟨t, ht⟩ := (HasPrefix_iff_exists _ _).mp hp'
    rw [ht, parseJWTHeader_bearer]
    split_ifs with hc
    · refine ⟨⟨fun _ => ?_, fun _ => rfl⟩, Or.inl rfl⟩
      obtain ⟨herr, hok, hnil, hacl⟩ := hc
      refine ⟨t, (jwtClient.Validate t c.GetIdentifier).2.1, rfl, ?_,
        lookup_isSome_of_mapIndex_not_nil _ _ hnil, hacl⟩
      exact Prod.ext hok (Prod.ext rfl herr)
    · refine ⟨⟨fun h => absurd h (by simp), ?_⟩, Or.inr rfl⟩
      rintro ⟨t', s, hh, hv, -, hacl⟩
      have htt : t' = t := (string_append_left_cancel _ _ _ hh).symm
      subst htt
      apply absurd _ hc
      rw [hv]
      refine ⟨rfl, rfl, ?_, hacl⟩
      obtain ⟨entry, hmem, -⟩ := (isPathAndMethodAllowed_true_iff _ _ _).mp hacl
      cases hs : c.GetIngressMapEntry s with
      | nil => rw [hs] at hmem; exact absurd hmem (by simp [Slice.toList])
      | of xs => rfl

/-- C4, as amended: for every Config, an egress request is answered with
status 200 exactly when the x-emissary-auth value does not start with
`"bearer "`, Host is non-empty, the egress map assigns Host a non-empty
identity and `Fetch` answers `(token, nil)` for the own identifier and that
identity; in every other case the answer is status 403. -/
theorem egressMode_allow_iff (jwtClient : JWTSVID) (c : Config) (r : Request) :
    ((egressMode jwtClient c ResponseWriter.fresh r).w.code = some 200 ↔
      (¬ ∃ t : String, r.headerGet JWTsvidHeaderKey = bearerStr ++ t) ∧ r.Host ≠ "" ∧
        ∃ identity token : String, c.egressMap.lookup r.Host = some identity ∧
          identity ≠ "" ∧ jwtClient.Fetch c.GetIdentifier identity = (token, none)) ∧
    ((egressMode jwtClient c ResponseWriter.fresh r).w.code = some 200 ∨
      (egressMode jwtClient c ResponseWriter.fresh r).w.code = some 403) := by
  rw [egressMode_eq, setEgressFailureResponse_fresh]
  simp only [setEgressSuccessResponse_fresh]
  have hpre : (parseJWTHeader (r.headerGet JWTsvidHeaderKey)).2 = true ↔
      ∃ t : String, r.headerGet JWTsvidHeaderKey = bearerStr ++ t := by
    rw [parseJWTHeader_snd]
    exact HasPrefix_iff_exists _ _
  have hget : ∀ identity, c.egressMap.lookup r.Host = some identity →
      c.GetEgressMapEntry r.Host = identity := by
    intro identity hl
    simp [Config.GetEgressMapEntry, mapIndex, hl]
  by_cases hg : (parseJWTHeader (r.headerGet JWTsvidHeaderKey)).2 = true ∨ r.Host = "" ∨
      c.GetEgressMapEntry r.Host = ""
  · rw [if_pos hg]
    refine ⟨⟨fun h => absurd h (by simp), ?_⟩, Or.inr rfl⟩
    rintro ⟨hno, hhost, identity, token, hl, hne, -⟩
    have hge := hget identity hl
    rcases hg with h1 | h2 | h3
    · exact absurd (hpre.mp h1) hno
    · exact absurd h2 hhost
    · exact absurd (hge ▸ h3) hne
  · rw [if_neg hg]
    have hg1 : ¬ (parseJWTHeader (r.headerGet JWTsvidHeaderKey)).2 = true :=
      fun h => hg (Or.inl h)
    have hg2 : r.Host ≠ "" := fun h => hg (Or.inr (Or.inl h))
    have hg3 : c.GetEgressMapEntry r.Host ≠ "" := fun h => hg (Or.inr (Or.inr h))
    have hl : c.egressMap.lookup r.Host = some (c.GetEgressMapEntry r.Host) := by
      unfold Config.GetEgressMapEntry mapIndex at hg3 ⊢
      cases hlk : c.egressMap.lookup r.Host with
      | none => rw [hlk] at hg3; exact absurd rfl hg3
      | some v => rfl
    split_ifs with hf
    · refine ⟨⟨fun _ => ⟨fun h => hg1 (hpre.mpr h), hg2, c.GetEgressMapEntry r.Host,
        (jwtClient.Fetch c.GetIdentifier (c.GetEgressMapEntry r.Host)).1, hl, hg3,
        Prod.ext rfl hf⟩, fun _ => rfl⟩, Or.inl rfl⟩
    · refine ⟨⟨fun h => absurd h (by simp), ?_⟩, Or.inr rfl⟩
      rintro ⟨-, -, identity, token, hl', -, hfetch⟩
      have hge := hget identity hl'
      rw [hge, hfetch] at hf
      exact absurd rfl hf

/-- C4 as written fails in both directions. A request that carries the
x-emissary-auth value `Basic dXNlcjpwYXNz` is allowed although an assertion
header is present; and with the Host of the request a key of the egress map
bound to the empty string, no assertion header and a `Fetch` that answers
`(token, nil)`, the request is denied. -/
theorem egressMode_allow_not_as_written :
    ((testRequest "GET" "/" "testhandler.blah.net"
        [("x-emissary-mode", "egress"), ("x-emissary-auth", "Basic dXNlcjpwYXNz")]).headerGet
        JWTsvidHeaderKey = "Basic dXNlcjpwYXNz" ∧
      (egressMode (stubProvider (false, "", none) ("thisisavalidsvid", none)) testConfig
        ResponseWriter.fresh
        (testRequest "GET" "/" "testhandler.blah.net"
          [("x-emissary-mode", "egress"),
            ("x-emissary-auth", "Basic dXNlcjpwYXNz")])).w.code = some 200) ∧
    ((testRequest "GET" "/" "testhandler.blah.net"
        [("x-emissary-mode", "egress")]).headerGet JWTsvidHeaderKey = "" ∧
      (testRequest "GET" "/" "testhandler.blah.net" [("x-emissary-mode", "egress")]).Host ≠ "" ∧
      emptyTargetConfig.egressMap.lookup "testhandler.blah.net" = some "" ∧
      (stubProvider (false, "", none) ("thisisavalidsvid", none)).Fetch
        emptyTargetConfig.GetIdentifier "" = ("thisisavalidsvid", none) ∧
      (egressMode (stubProvider (false, "", none) ("thisisavalidsvid", none))
        emptyTargetConfig ResponseWriter.fresh
        (testRequest "GET" "/" "testhandler.blah.net"
          [("x-emissary-mode", "egress")])).w.code = some 403) := by
  decide

/-! ## Spoof prevention on egress -/

/-- C5, as amended: an egress request whose x-emissary-auth value starts with
`"bearer "` is answered with status 403 and no header, and `Fetch` is not
called, whatever the Host, the egress map and the provider. -/
theorem egressMode_bearer_denied (jwtClient : JWTSVID) (c : Config) (r : Request)
    (t : String) (h : r.headerGet JWTsvidHeaderKey = bearerStr ++ t) :
    (egressMode jwtClient c ResponseWriter.fresh r).w = { header := [], code := some 403 } ∧
      (egressMode jwtClient c ResponseWriter.fresh r).calls = [] := by
  rw [egressMode_eq, setEgressFailureResponse_fresh, h, parseJWTHeader_bearer]
  simp

/-- The spoof test: a mapped host and a willing provider do not help a
request that already carries a bearer assertion. -/
theorem egressMode_bearer_denied_witness :
    (testRequest "GET" "/" "testhandler.blah.net"
        [("x-emissary-mode", "egress"), ("x-emissary-auth", "bearer validsvid")]).headerGet
        JWTsvidHeaderKey = bearerStr ++ "validsvid" ∧
    (egressMode (stubProvider (false, "", none) ("thisisavalidsvid", none)) testConfig
        ResponseWriter.fresh
        (testRequest "GET" "/" "testhandler.blah.net"
          [("x-emissary-mode", "egress"), ("x-emissary-auth", "bearer validsvid")])).w =
      { header := [], code := some 403 } ∧
    (egressMode (stubProvider (false, "", none) ("thisisavalidsvid", none)) testConfig
        ResponseWriter.fresh
        (testRequest "GET" "/" "testhandler.blah.net"
          [("x-emissary-mode", "egress"), ("x-emissary-auth", "bearer validsvid")])).calls =
      [] :=
  ⟨by decide,
    egressMode_bearer_denied (stubProvider (false, "", none) ("thisisavalidsvid", none))
      testConfig
      (testRequest "GET" "/" "testhandler.blah.net"
        [("x-emissary-mode", "egress"), ("x-emissary-auth", "bearer validsvid")])
      "validsvid" (by decide)⟩

/-- C5 as written fails: an x-emissary-auth header with the non-empty value
`"Bearer stolen"` (capital B, so not the scheme prefix) does not stop an egress
request; `Fetch` is called and the answer is status 200. -/
theorem egressMode_nonempty_header_not_denied :
    (testRequest "GET" "/" "testhandler.blah.net"
        [("x-emissary-mode", "egress"), ("x-emissary-auth", "Bearer stolen")]).headerGet
        JWTsvidHeaderKey ≠ "" ∧
    (egressMode (stubProvider (false, "", none) ("thisisavalidsvid", none)) testConfig
        ResponseWriter.fresh
        (testRequest "GET" "/" "testhandler.blah.net"
          [("x-emissary-mode", "egress"), ("x-emissary-auth", "Bearer stolen")])).w.code =
      some 200 ∧
    (egressMode (stubProvider (false, "", none) ("thisisavalidsvid", none)) testConfig
        ResponseWriter.fresh
        (testRequest "GET" "/" "testhandler.blah.net"
          [("x-emissary-mode", "egress"), ("x-emissary-auth", "Bearer stolen")])).calls =
      [Call.Fetch "spiffe://bogus/appname" "spiffe://bogus/test"] := by
  decide

/-! ## Ingress denials -/

/-- C6: with the `"bearer "` prefix present, an error from `Validate` or an
answer `isValid = false` (each alone, with or without the other) is answered
with status 403 and x-emissary-auth-status `failure`, whatever subject
`Validate` returned and whatever the ingress map holds for it. -/
theorem ingressMode_validate_failure_denied (jwtClient : JWTSVID) (c : Config)
    (r : Request) (t : String) (h : r.headerGet JWTsvidHeaderKey = bearerStr ++ t)
    (hv : (jwtClient.Validate t c.GetIdentifier).2.2 ≠ none ∨
      (jwtClient.Validate t c.GetIdentifier).1 = false) :
    (ingressMode jwtClient c ResponseWriter.fresh r).w.code = some 403 ∧
      (ingressMode jwtClient c ResponseWriter.fresh r).w.headerValue AuthStatusHeaderKey =
        some "failure" := by
  rw [ingressMode_eq, setIngressFailureResponse_fresh, h, parseJWTHeader_bearer]
  have hn : ¬ ((jwtClient.Validate t c.GetIdentifier).2.2 = none ∧
      (jwtClient.Validate t c.GetIdentifier).1 = true ∧
      (c.GetIngressMapEntry (jwtClient.Validate t c.GetIdentifier).2.1).isNil = false ∧
      (isPathAndMethodAllowed (c.GetIngressMapEntry
        (jwtClient.Validate t c.GetIdentifier).2.1) r.Method r.Path).1 = true) := by
    rintro ⟨h1, h2, -⟩
    rcases hv with hv | hv
    · exact hv h1
    · rw [h2] at hv
      exact absurd hv (by simp)
  simp only [if_neg hn]
  exact ⟨rfl, rfl⟩

/-- The invalid-SVID test: `Validate` answers `(false, subject, nil)` for a
subject whose ACL list accepts the request, and the request is denied. -/
theorem ingressMode_validate_failure_denied_witness :
    (testRequest "GET" "/asdf" "" [("x-emissary-mode", "ingress"),
        ("x-emissary-auth", "bearer validsvid")]).headerGet JWTsvidHeaderKey =
      bearerStr ++ "validsvid" ∧
    (isPathAndMethodAllowed (testConfig.GetIngressMapEntry "spiffe://goodsubject")
      "GET" "/asdf").1 = true ∧
    (ingressMode (stubProvider (false, "spiffe://goodsubject", none) ("", none)) testConfig
        ResponseWriter.fresh
        (testRequest "GET" "/asdf" "" [("x-emissary-mode", "ingress"),
          ("x-emissary-auth", "bearer validsvid")])).w.code = some 403 ∧
    (ingressMode (stubProvider (false, "spiffe://goodsubject", none) ("", none)) testConfig
        ResponseWriter.fresh
        (testRequest "GET" "/asdf" "" [("x-emissary-mode", "ingress"),
          ("x-emissary-auth", "bearer validsvid")])).w.headerValue AuthStatusHeaderKey =
      some "failure" :=
  ⟨by decide, by decide,
    ingressMode_validate_failure_denied
      (stubProvider (false, "spiffe://goodsubject", none) ("", none)) testConfig
      (testRequest "GET" "/asdf" "" [("x-emissary-mode", "ingress"),
        ("x-emissary-auth", "bearer validsvid")])
      "validsvid" (by decide) (Or.inr (by decide))⟩

/-- C7: every ingress response is one of two shapes: status 200 with
x-emissary-auth-status `success`, or status 403 with x-emissary-auth-status
`failure`. -/
theorem ingressMode_response_shape (jwtClient : JWTSVID) (c : Config) (r : Request) :
    ((ingressMode jwtClient c ResponseWriter.fresh r).w.code = some 200 ∧
      (ingressMode jwtClient c ResponseWriter.fresh r).w.headerValue AuthStatusHeaderKey =
        some "success") ∨
    ((ingressMode jwtClient c ResponseWriter.fresh r).w.code = some 403 ∧
      (ingressMode jwtClient c ResponseWriter.fresh r).w.headerValue AuthStatusHeaderKey =
        some "failure") := by
  rw [ingressMode_eq, setIngressFailureResponse_fresh, setIngressSuccessResponse_fresh]
  split_ifs
  · exact Or.inr ⟨rfl, rfl⟩
  · exact Or.inl ⟨rfl, rfl⟩
  · exact Or.inr ⟨rfl, rfl⟩

/-- C8: any two ingress requests that are not allowed, for whatever reasons,
under whatever configurations and providers, get the same response: status 403
and the same headers with the same values. -/
theorem ingressMode_denials_indistinguishable (jwtClient₁ jwtClient₂ : JWTSVID)
    (c₁ c₂ : Config) (r₁ r₂ : Request)
    (h₁ : (ingressMode jwtClient₁ c₁ ResponseWriter.fresh r₁).w.code ≠ some 200)
    (h₂ : (ingressMode jwtClient₂ c₂ ResponseWriter.fresh r₂).w.code ≠ some 200) :
    (ingressMode jwtClient₁ c₁ ResponseWriter.fresh r₁).w =
        (ingressMode jwtClient₂ c₂ ResponseWriter.fresh r₂).w ∧
      (ingressMode jwtClient₁ c₁ ResponseWriter.fresh r₁).w.code = some 403 := by
  have key : ∀ (j : JWTSVID) (c : Config) (r : Request),
      (ingressMode j c ResponseWriter.fresh r).w.code ≠ some 200 →
      (ingressMode j c ResponseWriter.fresh r).w =
        { header := [(AuthStatusHeaderKey, "failure")], code := some 403 } := by
    intro j c r
    rw [ingressMode_eq, setIngressFailureResponse_fresh, setIngressSuccessResponse_fresh]
    split_ifs
    · intro _; rfl
    · intro h; exact absurd rfl h
    · intro _; rfl
  rw [key _ _ _ h₁, key _ _ _ h₂]
  exact ⟨rfl, rfl⟩

/-- A request without any assertion and a request whose validated subject is
not allowed the method: two different deny reasons, one response. -/
theorem ingressMode_denials_indistinguishable_witness :
    (ingressMode (stubProvider (true, "spiffe://goodsubject", none) ("", none)) testConfig
        ResponseWriter.fresh
        (testRequest "GET" "/asdf" "" [("x-emissary-mode", "ingress")])).w =
      (ingressMode (stubProvider (true, "spiffe://goodsubject", none) ("", none)) testConfig
        ResponseWriter.fresh
        (testRequest "POST" "/asdf" "" [("x-emissary-mode", "ingress"),
          ("x-emissary-auth", "bearer validsvid")])).w ∧
    (ingressMode (stubProvider (true, "spiffe://goodsubject", none) ("", none)) testConfig
        ResponseWriter.fresh
        (testRequest "GET" "/asdf" "" [("x-emissary-mode", "ingress")])).w.code = some 403 :=
  ingressMode_denials_indistinguishable
    (stubProvider (true, "spiffe://goodsubject", none) ("", none))
    (stubProvider (true, "spiffe://goodsubject", none) ("", none))
    testConfig testConfig
    (testRequest "GET" "/asdf" "" [("x-emissary-mode", "ingress")])
    (testRequest "POST" "/asdf" "" [("x-emissary-mode", "ingress"),
      ("x-emissary-auth", "bearer validsvid")])
    (by decide) (by decide)

/-! ## Egress responses -/

/-- C9: when `egressMode` allows a request (the response has status 200), the
x-emissary-auth response header is `"bearer "` followed by exactly the token
that the one `Fetch` call returned, and that call returned no error. -/
theorem egressMode_allow_header (jwtClient : JWTSVID) (c : Config) (r : Request)
    (h : (egressMode jwtClient c ResponseWriter.fresh r).w.code = some 200) :
    (egressMode jwtClient c ResponseWriter.fresh r).w.headerValue JWTsvidHeaderKey =
        some (bearerStr ++ (jwtClient.Fetch c.GetIdentifier (c.GetEgressMapEntry r.Host)).1) ∧
      (egressMode jwtClient c ResponseWriter.fresh r).calls =
        [Call.Fetch c.GetIdentifier (c.GetEgressMapEntry r.Host)] ∧
      (jwtClient.Fetch c.GetIdentifier (c.GetEgressMapEntry r.Host)).2 = none := by
  rw [egressMode_eq, setEgressFailureResponse_fresh] at h ⊢
  simp only [setEgressSuccessResponse_fresh] at h ⊢
  split_ifs at h ⊢ with h1 h2
  · exact absurd h (by simp)
  · refine ⟨?_, rfl, h2⟩
    simp [ResponseWriter.headerValue]
  · exact absurd h (by simp)

/-- The happy path of the egress tests: the header is the prefix followed by
the token of the provider. -/
theorem egressMode_allow_header_witness :
    (egressMode (stubProvider (false, "", none) ("thisisavalidsvid", none)) testConfig
        ResponseWriter.fresh
        (testRequest "GET" "/" "testhandler.blah.net"
          [("x-emissary-mode", "egress")])).w.code = some 200 ∧
    (egressMode (stubProvider (false, "", none) ("thisisavalidsvid", none)) testConfig
        ResponseWriter.fresh
        (testRequest "GET" "/" "testhandler.blah.net"
          [("x-emissary-mode", "egress")])).w.headerValue JWTsvidHeaderKey =
      some (bearerStr ++ ((stubProvider (false, "", none) ("thisisavalidsvid", none)).Fetch
        testConfig.GetIdentifier (testConfig.GetEgressMapEntry
          (testRequest "GET" "/" "testhandler.blah.net"
            [("x-emissary-mode", "egress")]).Host)).1) :=
  ⟨by decide,
    (egressMode_allow_header (stubProvider (false, "", none) ("thisisavalidsvid", none))
      testConfig
      (testRequest "GET" "/" "testhandler.blah.net" [("x-emissary-mode", "egress")])
      (by decide)).1⟩

/-- C10: no egress response carries the x-emissary-auth-status header, and an
egress response that is not the allow response has status 403 and carries no
x-emissary-auth header. -/
theorem egressMode_response_frame (jwtClient : JWTSVID) (c : Config) (r : Request) :
    (egressMode jwtClient c ResponseWriter.fresh r).w.headerValue AuthStatusHeaderKey =
        none ∧
      ((egressMode jwtClient c ResponseWriter.fresh r).w.code = some 200 ∨
        ((egressMode jwtClient c ResponseWriter.fresh r).w.code = some 403 ∧
          (egressMode jwtClient c ResponseWriter.fresh r).w.headerValue JWTsvidHeaderKey =
            none)) := by
  rw [egressMode_eq, setEgressFailureResponse_fresh]
  simp only [setEgressSuccessResponse_fresh]
  have hk : (AuthStatusHeaderKey == JWTsvidHeaderKey) = false := by decide
  split_ifs
  · exact ⟨rfl, Or.inr ⟨rfl, rfl⟩⟩
  · refine ⟨?_, Or.inl rfl⟩
    simp [ResponseWriter.headerValue, List.lookup, hk]
  · exact ⟨rfl, Or.inr ⟨rfl, rfl⟩⟩

/-! ## Lemmas on building the configuration -/

theorem validateIngressMapEntry_eq (entry : ACL) :
    validateIngressMapEntry entry =
      if entry.Path = "" then (false, some "ingress map entry does not contain a path")
      else if entry.Methods.toList = [] then
        (false, some "ingress map entry does not contain any methods")
      else (true, none) := by
  unfold validateIngressMapEntry
  simp only []
  by_cases hp : entry.Path = ""
  · simp [hp]
  · simp only [if_neg hp]
    cases hm : entry.Methods with
    | nil => simp [Slice.isNil, Slice.toList]
    | of xs =>
      cases xs with
      | nil => simp [Slice.isNil, Slice.toList, Slice.len]
      | cons x rest => simp [Slice.isNil, Slice.toList, Slice.len]

theorem validateEntriesLoop_none (key : String) (value : Slice ACL) (entries : List ACL)
    (h : validateEntriesLoop key value entries = none) :
    ∀ entry ∈ entries, (validateIngressMapEntry entry).1 = true := by
  induction entries with
  | nil => intro entry he; simp at he
  | cons e rest ih =>
    rw [validateEntriesLoop] at h
    by_cases hv : (validateIngressMapEntry e).1 = true
    · simp only [hv, Bool.not_true, Bool.false_eq_true, if_false] at h
      intro entry he
      rcases List.mem_cons.mp he with rfl | hr
      · exact hv
      · exact ih h entry hr
    · have hv' : (validateIngressMapEntry e).1 = false := Bool.eq_false_iff.mpr hv
      simp [hv'] at h

theorem validateIngressMapLoop_none (lib : Lib) (m : List (String × Slice ACL))
    (h : validateIngressMapLoop lib m = none) :
    ∀ kv ∈ m, validateSpiffeID lib kv.1 = true ∧ kv.2.len ≠ 0 ∧
      ∀ entry ∈ kv.2.toList, (validateIngressMapEntry entry).1 = true := by
  induction m with
  | nil => intro kv hkv; simp at hkv
  | cons b rest ih =>
    rw [validateIngressMapLoop] at h
    by_cases h1 : validateSpiffeID lib b.1 = true
    · simp only [h1, Bool.not_true, Bool.false_eq_true, if_false] at h
      by_cases h2 : b.2.len = 0
      · simp [h2] at h
      · simp only [if_neg h2] at h
        cases h3 : validateEntriesLoop b.1 b.2 b.2.toList with
        | some err => rw [h3] at h; simp at h
        | none =>
          rw [h3] at h
          intro kv hkv
          rcases List.mem_cons.mp hkv with rfl | hr
          · exact ⟨h1, h2, validateEntriesLoop_none _ _ _ h3⟩
          · exact ih h kv hr
    · have h1' : validateSpiffeID lib b.1 = false := Bool.eq_false_iff.mpr h1
      simp [h1'] at h

theorem validateEgressMapLoop_none (lib : Lib) (m : List (String × String))
    (h : validateEgressMapLoop lib m = none) :
    ∀ kv ∈ m, validateSpiffeID lib kv.2 = true := by
  induction m with
  | nil => intro kv hkv; simp at hkv
  | cons b rest ih =>
    rw [validateEgressMapLoop] at h
    by_cases h1 : validateSpiffeID lib b.2 = true
    · simp only [h1, Bool.not_true, Bool.false_eq_true, if_false] at h
      intro kv hkv
      rcases List.mem_cons.mp hkv with rfl | hr
      · exact h1
      · exact ih h kv hr
    · have h1' : validateSpiffeID lib b.2 = false := Bool.eq_false_iff.mpr h1
      simp [h1'] at h

theorem validateSpiffeID_iff (lib : Lib) (spiffeID : String) :
    validateSpiffeID lib spiffeID = true ↔ lib.ValidateSpiffeID spiffeID = none := by
  unfold validateSpiffeID
  cases lib.ValidateSpiffeID spiffeID <;> simp

theorem afterDogstatsd_result (lib : Lib) (getenv : String → String) (l : BuildLocals)
    (enabled : Bool) (host : String) (port : Int) :
    BuildResult l (BuildConfig.afterDogstatsd lib getenv l enabled host port) := by
  unfold BuildConfig.afterDogstatsd BuildResult
  simp only []
  split_ifs <;> simp

theorem afterEgress_result (lib : Lib) (getenv : String → String) (l : BuildLocals) :
    BuildResult l (BuildConfig.afterEgress lib getenv l) := by
  unfold BuildConfig.afterEgress
  simp only []
  split_ifs <;>
    first
    | exact afterDogstatsd_result _ _ _ _ _ _
    | exact Or.inr ⟨rfl, by simp⟩

theorem afterIngress_result (lib : Lib) (getenv : String → String) (l : BuildLocals) :
    ((BuildConfig.afterIngress lib getenv l).2 = none ∧
      (BuildConfig.afterIngress lib getenv l).1.ready = true ∧
      (BuildConfig.afterIngress lib getenv l).1.identifier = l.identifier ∧
      (BuildConfig.afterIngress lib getenv l).1.ingressMap = l.ingressMap ∧
      (BuildConfig.afterIngress lib getenv l).1.egressMap = decodedEgressMap lib getenv ∧
      validateEgressMapLoop lib (decodedEgressMap lib getenv) = none) ∨
    ((BuildConfig.afterIngress lib getenv l).1 = zeroConfig ∧
      (BuildConfig.afterIngress lib getenv l).2 ≠ none) := by
  unfold BuildConfig.afterIngress decodedEgressMap
  by_cases he : getenv "EMISSARY_EGRESS_MAP" = ""
  · simp only [he, ne_eq, not_true_eq_false, if_false, if_true]
    rcases afterEgress_result lib getenv { l with egressMap := [] } with h | h
    · obtain ⟨h1, h2, h3, h4, h5⟩ := h
      exact Or.inl ⟨h1, h2, h3, h4, h5, rfl⟩
    · exact Or.inr h
  · simp only [ne_eq, he, not_false_eq_true, if_true, if_false]
    by_cases hv : lib.jsonValid (getenv "EMISSARY_EGRESS_MAP") = true
    · simp only [hv, Bool.not_true, Bool.false_eq_true, if_false]
      cases hl : validateEgressMapLoop lib
          (lib.jsonUnmarshalEgress (getenv "EMISSARY_EGRESS_MAP")).1 with
      | some err => exact Or.inr (by simp)
      | none =>
        simp only []
        rcases afterEgress_result lib getenv
          { l with egressMap := (lib.jsonUnmarshalEgress (getenv "EMISSARY_EGRESS_MAP")).1 }
          with h | h
        · obtain ⟨h1, h2, h3, h4, h5⟩ := h
          exact Or.inl ⟨h1, h2, h3, h4, h5, trivial⟩
        · exact Or.inr h
    · have hv' : lib.jsonValid (getenv "EMISSARY_EGRESS_MAP") = false :=
        Bool.eq_false_iff.mpr hv
      simp only [hv', Bool.not_false, if_true]
      exact Or.inr (by simp)

theorem afterListener_result (lib : Lib) (getenv : String → String)
    (scheme listener : String) :
    ((BuildConfig.afterListener lib getenv scheme listener).2 = none ∧
      (BuildConfig.afterListener lib getenv scheme listener).1.ready = true ∧
      (BuildConfig.afterListener lib getenv scheme listener).1.identifier =
        getenv "EMISSARY_IDENTIFIER" ∧
      validateSpiffeID lib (getenv "EMISSARY_IDENTIFIER") = true ∧
      (BuildConfig.afterListener lib getenv scheme listener).1.ingressMap =
        decodedIngressMap lib getenv ∧
      validateIngressMapLoop lib (decodedIngressMap lib getenv) = none ∧
      (BuildConfig.afterListener lib getenv scheme listener).1.egressMap =
        decodedEgressMap lib getenv ∧
      validateEgressMapLoop lib (decodedEgressMap lib getenv) = none) ∨
    ((BuildConfig.afterListener lib getenv scheme listener).1 = zeroConfig ∧
      (BuildConfig.afterListener lib getenv scheme listener).2 ≠ none) := by
  unfold BuildConfig.afterListener decodedIngressMap
  simp only []
  by_cases hid : getenv "EMISSARY_IDENTIFIER" = ""
  · rw [if_pos hid]
    exact Or.inr (by simp)
  · rw [if_neg hid]
    by_cases hvalid : validateSpiffeID lib (getenv "EMISSARY_IDENTIFIER") = true
    · simp only [hvalid, Bool.not_true, Bool.false_eq_true, if_false]
      by_cases hi : getenv "EMISSARY_INGRESS_MAP" = ""
      · simp only [hi, ne_eq, not_true_eq_false, if_false, if_true]
        rcases afterIngress_result lib getenv _ with h | h
        · obtain ⟨h1, h2, h3, h4, h5, h6⟩ := h
          exact Or.inl ⟨h1, h2, h3, trivial, h4, rfl, h5, h6⟩
        · exact Or.inr h
      · simp only [ne_eq, hi, not_false_eq_true, if_true, if_false]
        by_cases hv : lib.jsonValid (getenv "EMISSARY_INGRESS_MAP") = true
        · simp only [hv, Bool.not_true, Bool.false_eq_true, if_false]
          cases hl : validateIngressMapLoop lib
              (lib.jsonUnmarshalIngress (getenv "EMISSARY_INGRESS_MAP")).1 with
          | some err => exact Or.inr (by simp)
          | none =>
            simp only []
            rcases afterIngress_result lib getenv _ with h | h
            · obtain ⟨h1, h2, h3, h4, h5, h6⟩ := h
              exact Or.inl ⟨h1, h2, h3, trivial, h4, trivial, h5, h6⟩
            · exact Or.inr h
        · have hv' : lib.jsonValid (getenv "EMISSARY_INGRESS_MAP") = false :=
            Bool.eq_false_iff.mpr hv
          simp only [hv', Bool.not_false, if_true]
          exact Or.inr (by simp)
    · have hvalid' : validateSpiffeID lib (getenv "EMISSARY_IDENTIFIER") = false :=
        Bool.eq_false_iff.mpr hvalid
      simp only [hvalid', Bool.not_false, if_true]
      exact Or.inr (by simp)

/-- The two ways `BuildConfig` ends: a ready Config holding the validated
identifier and the two validated, decoded maps, or the zero Config and an
error. -/
theorem BuildConfig_cases (lib : Lib) (getenv : String → String) :
    ((BuildConfig lib getenv).2 = none ∧
      (BuildConfig lib getenv).1.ready = true ∧
      (BuildConfig lib getenv).1.identifier = getenv "EMISSARY_IDENTIFIER" ∧
      validateSpiffeID lib (getenv "EMISSARY_IDENTIFIER") = true ∧
      (BuildConfig lib getenv).1.ingressMap = decodedIngressMap lib getenv ∧
      validateIngressMapLoop lib (decodedIngressMap lib getenv) = none ∧
      (BuildConfig lib getenv).1.egressMap = decodedEgressMap lib getenv ∧
      validateEgressMapLoop lib (decodedEgressMap lib getenv) = none) ∨
    ((BuildConfig lib getenv).1 = zeroConfig ∧ (BuildConfig lib getenv).2 ≠ none) := by
  unfold BuildConfig
  simp only []
  split_ifs <;>
    first
    | exact afterListener_result _ _ _ _
    | exact Or.inr (by simp)

/-- The error of `json.Unmarshal` plays no part in `BuildConfig`: a library
that differs only in never reporting one builds the same result. -/
theorem BuildConfig_ignores_unmarshal_error (lib : Lib) (getenv : String → String) :
    BuildConfig
        { lib with
          jsonUnmarshalIngress := fun source => ((lib.jsonUnmarshalIngress source).1, none)
          jsonUnmarshalEgress := fun source => ((lib.jsonUnmarshalEgress source).1, none) }
        getenv = BuildConfig lib getenv := by
  have h1 : ∀ m, validateIngressMapLoop
      { lib with
        jsonUnmarshalIngress := fun source => ((lib.jsonUnmarshalIngress source).1, none)
        jsonUnmarshalEgress := fun source => ((lib.jsonUnmarshalEgress source).1, none) } m =
      validateIngressMapLoop lib m := by
    intro m
    induction m with
    | nil => rfl
    | cons b rest ih => simp only [validateIngressMapLoop, validateSpiffeID, ih]
  have h2 : ∀ m, validateEgressMapLoop
      { lib with
        jsonUnmarshalIngress := fun source => ((lib.jsonUnmarshalIngress source).1, none)
        jsonUnmarshalEgress := fun source => ((lib.jsonUnmarshalEgress source).1, none) } m =
      validateEgressMapLoop lib m := by
    intro m
    induction m with
    | nil => rfl
    | cons b rest ih => simp only [validateEgressMapLoop, validateSpiffeID, ih]
  unfold BuildConfig BuildConfig.afterListener BuildConfig.afterIngress
  simp only [h1, h2]
  rfl

theorem ingressMode_code (jwtClient : JWTSVID) (c : Config) (r : Request) :
    (ingressMode jwtClient c ResponseWriter.fresh r).w.code = some 200 ∨
      (ingressMode jwtClient c ResponseWriter.fresh r).w.code = some 403 := by
  rw [ingressMode_eq, setIngressFailureResponse_fresh, setIngressSuccessResponse_fresh]
  split_ifs
  · exact Or.inr rfl
  · exact Or.inl rfl
  · exact Or.inr rfl

theorem egressMode_code (jwtClient : JWTSVID) (c : Config) (r : Request) :
    (egressMode jwtClient c ResponseWriter.fresh r).w.code = some 200 ∨
      (egressMode jwtClient c ResponseWriter.fresh r).w.code = some 403 := by
  rw [egressMode_eq, setEgressFailureResponse_fresh]
  simp only [setEgressSuccessResponse_fresh]
  split_ifs
  · exact Or.inr rfl
  · exact Or.inl rfl
  · exact Or.inr rfl

/-! ## The request router -/

/-- C11: `AuthHandler` answers with status 412 exactly when the x-emissary-mode
value is neither `ingress` nor `egress`; a 412 response carries no header and
comes with no call to the identity provider; and neither `ingressMode` nor
`egressMode` ever answers 412. -/
theorem AuthHandler_unknown_mode (jwtClient : JWTSVID) (c : Config) (r : Request) :
    ((AuthHandler jwtClient c ResponseWriter.fresh r).1.w.code = some 412 ↔
      (r.headerGet JWTModeHeader ≠ "ingress" ∧ r.headerGet JWTModeHeader ≠ "egress")) ∧
    ((AuthHandler jwtClient c ResponseWriter.fresh r).1.w.code ≠ some 412 ∨
      ((AuthHandler jwtClient c ResponseWriter.fresh r).1.w.header = [] ∧
        (AuthHandler jwtClient c ResponseWriter.fresh r).1.calls = [])) ∧
    (ingressMode jwtClient c ResponseWriter.fresh r).w.code ≠ some 412 ∧
    (egressMode jwtClient c ResponseWriter.fresh r).w.code ≠ some 412 := by
  have hi : (ingressMode jwtClient c ResponseWriter.fresh r).w.code ≠ some 412 := by
    rcases ingressMode_code jwtClient c r with h | h <;> rw [h] <;> simp
  have he : (egressMode jwtClient c ResponseWriter.fresh r).w.code ≠ some 412 := by
    rcases egressMode_code jwtClient c r with h | h <;> rw [h] <;> simp
  refine ⟨?_, ?_, hi, he⟩
  · unfold AuthHandler
    simp only []
    by_cases h1 : r.headerGet JWTModeHeader = "ingress"
    · rw [if_pos h1]
      exact ⟨fun h => absurd h hi, fun h => absurd h1 h.1⟩
    · rw [if_neg h1]
      by_cases h2 : r.headerGet JWTModeHeader = "egress"
      · rw [if_pos h2]
        exact ⟨fun h => absurd h he, fun h => absurd h2 h.2⟩
      · rw [if_neg h2]
        exact ⟨fun _ => ⟨h1, h2⟩, fun _ => rfl⟩
  · unfold AuthHandler
    simp only []
    by_cases h1 : r.headerGet JWTModeHeader = "ingress"
    · rw [if_pos h1]
      exact Or.inl hi
    · rw [if_neg h1]
      by_cases h2 : r.headerGet JWTModeHeader = "egress"
      · rw [if_pos h2]
        exact Or.inl he
      · rw [if_neg h2]
        exact Or.inr ⟨rfl, rfl⟩

/-! ## The diagnostics of the matcher -/

/-- C12: when no entry satisfies both conditions, `isPathAndMethodAllowed`
returns `(false, 65535, err)`; the message of `err` is `no matching ACL: path
match: false, method match: unknown` when no entry's path is a prefix of the
request path and `no matching ACL: path match: true, method match: false` when
some entry's path is. -/
theorem isPathAndMethodAllowed_no_match (acl : Slice ACL) (method path : String)
    (h : ∀ entry ∈ acl.toList,
      ¬ (entry.Path.data <+: path.data ∧ method ∈ entry.Methods.toList)) :
    ((∀ entry ∈ acl.toList, ¬ entry.Path.data <+: path.data) →
      isPathAndMethodAllowed acl method path =
        (false, 65535, some "no matching ACL: path match: false, method match: unknown")) ∧
    ((∃ entry ∈ acl.toList, entry.Path.data <+: path.data) →
      isPathAndMethodAllowed acl method path =
        (false, 65535, some "no matching ACL: path match: true, method match: false")) := by
  have hno : ¬ acl.toList.findIdx (entryAllows method path) < acl.toList.length := by
    intro hlt
    obtain ⟨e, he, hpe⟩ := List.findIdx_lt_length.mp hlt
    exact h e he ((entryAllows_iff method path e).mp hpe)
  rw [isPathAndMethodAllowed_eq, if_neg hno]
  constructor
  · intro hnone
    have : anyPathMatch path acl.toList = false := by
      unfold anyPathMatch
      rw [List.any_eq_false]
      intro e he hp
      exact hnone e he ((HasPrefix_iff path e.Path).mp hp)
    rw [this]
    rfl
  · rintro ⟨e, he, hp⟩
    have : anyPathMatch path acl.toList = true := by
      unfold anyPathMatch
      rw [List.any_eq_true]
      exact ⟨e, he, (HasPrefix_iff path e.Path).mpr hp⟩
    rw [this]
    rfl

/-- The matcher test: `/path2/123123` matches the path of the second entry,
`BADMETHOD` is in no list. -/
theorem isPathAndMethodAllowed_no_match_witness :
    (∀ entry ∈ (Slice.of [⟨"/path1", .of ["GET", "POST", "PUT"]⟩,
        ⟨"/path2", .of ["PATCH", "GET", "HEAD"]⟩,
        ⟨"/path3", .of ["OPTIONS", "PUT", "GET"]⟩] : Slice ACL).toList,
      ¬ (entry.Path.data <+: "/path2/123123".data ∧
        "BADMETHOD" ∈ entry.Methods.toList)) ∧
    isPathAndMethodAllowed (Slice.of [⟨"/path1", .of ["GET", "POST", "PUT"]⟩,
        ⟨"/path2", .of ["PATCH", "GET", "HEAD"]⟩,
        ⟨"/path3", .of ["OPTIONS", "PUT", "GET"]⟩]) "BADMETHOD" "/path2/123123" =
      (false, 65535, some "no matching ACL: path match: true, method match: false") :=
  ⟨by decide,
    (isPathAndMethodAllowed_no_match
      (Slice.of [⟨"/path1", .of ["GET", "POST", "PUT"]⟩,
        ⟨"/path2", .of ["PATCH", "GET", "HEAD"]⟩,
        ⟨"/path3", .of ["OPTIONS", "PUT", "GET"]⟩]) "BADMETHOD" "/path2/123123"
      (by decide)).2
      ⟨⟨"/path2", .of ["PATCH", "GET", "HEAD"]⟩, by decide, by decide⟩⟩

/-! ## The header parser -/

/-- C13: `parseJWTHeader h` is `(t, true)` exactly when `h` is `"bearer "`
followed by `t`; for every other `h`, the empty string and `Bearer x` among
them, it is `("", false)`. -/
theorem parseJWTHeader_spec :
    (∀ h t : String, parseJWTHeader h = (t, true) ↔ h = bearerStr ++ t) ∧
    (∀ h : String, (∃ t : String, h = bearerStr ++ t) ∨ parseJWTHeader h = ("", false)) ∧
    parseJWTHeader "" = ("", false) ∧
    parseJWTHeader "Bearer x" = ("", false) ∧
    bearerStr = "bearer " := by
  refine ⟨?_, ?_, by decide, by decide, rfl⟩
  · intro h t
    constructor
    · intro hp
      cases hpre : HasPrefix h bearerStr with
      | false =>
        rw [parseJWTHeader_no_bearer h hpre] at hp
        exact absurd (congrArg Prod.snd hp) (by simp)
      | true =>
        obtain ⟨t', rfl⟩ := (HasPrefix_iff_exists h bearerStr).mp hpre
        rw [parseJWTHeader_bearer] at hp
        have ht : t' = t := congrArg Prod.fst hp
        rw [ht]
    · rintro rfl
      exact parseJWTHeader_bearer t
  · intro h
    cases hpre : HasPrefix h bearerStr with
    | false => exact Or.inr (parseJWTHeader_no_bearer h hpre)
    | true => exact Or.inl ((HasPrefix_iff_exists h bearerStr).mp hpre)

/-! ## Calls to the identity provider -/

/-- C14: an ingress request whose x-emissary-auth value is `"bearer "` followed
by `t` makes exactly one call, `Validate(t, own identifier)`; any other ingress
request makes no call; `Fetch` is never called. -/
theorem ingressMode_calls (jwtClient : JWTSVID) (c : Config) (r : Request) :
    ((∃ t : String, r.headerGet JWTsvidHeaderKey = bearerStr ++ t ∧
        (ingressMode jwtClient c ResponseWriter.fresh r).calls =
          [Call.Validate t c.GetIdentifier]) ∨
      ((¬ ∃ t : String, r.headerGet JWTsvidHeaderKey = bearerStr ++ t) ∧
        (ingressMode jwtClient c ResponseWriter.fresh r).calls = [])) ∧
    (∀ identifier audience : String,
      Call.Fetch identifier audience ∉ (ingressMode jwtClient c ResponseWriter.fresh r).calls) ∧
    (ingressMode jwtClient c ResponseWriter.fresh r).calls.length ≤ 1 := by
  rw [ingressMode_eq]
  cases hpre : HasPrefix (r.headerGet JWTsvidHeaderKey) bearerStr with
  | false =>
    have hno : ¬ ∃ t : String, r.headerGet JWTsvidHeaderKey = bearerStr ++ t :=
      fun hex => by
        rw [(HasPrefix_iff_exists _ _).mpr hex] at hpre
        exact absurd hpre (by simp)
    rw [parseJWTHeader_no_bearer _ hpre, if_pos rfl]
    exact ⟨Or.inr ⟨hno, rfl⟩, by simp, by simp⟩
  | true =>
    obtain ⟨t, ht⟩ := (HasPrefix_iff_exists _ _).mp hpre
    rw [ht, parseJWTHeader_bearer, if_neg (by simp)]
    split_ifs
    · exact ⟨Or.inl ⟨t, rfl, rfl⟩, by simp, by simp⟩
    · exact ⟨Or.inl ⟨t, rfl, rfl⟩, by simp, by simp⟩

/-- C15: an egress request makes no call when it carries a `"bearer "`
header, when Host is empty or when the egress map gives no identity for Host
(`GetEgressMapEntry` answers the empty string, as it does for a Host that is
not a key); otherwise it makes exactly one call, `Fetch(own identifier,
identity mapped to Host)`; `Validate` is never called. -/
theorem egressMode_calls (jwtClient : JWTSVID) (c : Config) (r : Request) :
    ((((∃ t : String, r.headerGet JWTsvidHeaderKey = bearerStr ++ t) ∨ r.Host = "" ∨
          c.GetEgressMapEntry r.Host = "") ∧
        (egressMode jwtClient c ResponseWriter.fresh r).calls = []) ∨
      ((¬ ∃ t : String, r.headerGet JWTsvidHeaderKey = bearerStr ++ t) ∧ r.Host ≠ "" ∧
        c.GetEgressMapEntry r.Host ≠ "" ∧
        c.egressMap.lookup r.Host = some (c.GetEgressMapEntry r.Host) ∧
        (egressMode jwtClient c ResponseWriter.fresh r).calls =
          [Call.Fetch c.GetIdentifier (c.GetEgressMapEntry r.Host)])) ∧
    (c.egressMap.lookup r.Host ≠ none ∨
      (egressMode jwtClient c ResponseWriter.fresh r).calls = []) ∧
    (∀ svid audience : String,
      Call.Validate svid audience ∉ (egressMode jwtClient c ResponseWriter.fresh r).calls) ∧
    (egressMode jwtClient c ResponseWriter.fresh r).calls.length ≤ 1 := by
  have hpre : (parseJWTHeader (r.headerGet JWTsvidHeaderKey)).2 = true ↔
      ∃ t : String, r.headerGet JWTsvidHeaderKey = bearerStr ++ t := by
    rw [parseJWTHeader_snd]
    exact HasPrefix_iff_exists _ _
  rw [egressMode_eq]
  by_cases hg : (parseJWTHeader (r.headerGet JWTsvidHeaderKey)).2 = true ∨ r.Host = "" ∨
      c.GetEgressMapEntry r.Host = ""
  · rw [if_pos hg]
    refine ⟨Or.inl ⟨?_, rfl⟩, Or.inr rfl, by simp, by simp⟩
    rcases hg with h1 | h2 | h3
    · exact Or.inl (hpre.mp h1)
    · exact Or.inr (Or.inl h2)
    · exact Or.inr (Or.inr h3)
  · rw [if_neg hg]
    have hg1 : ¬ ∃ t : String, r.headerGet JWTsvidHeaderKey = bearerStr ++ t :=
      fun h => hg (Or.inl (hpre.mpr h))
    have hg2 : r.Host ≠ "" := fun h => hg (Or.inr (Or.inl h))
    have hg3 : c.GetEgressMapEntry r.Host ≠ "" := fun h => hg (Or.inr (Or.inr h))
    have hl : c.egressMap.lookup r.Host = some (c.GetEgressMapEntry r.Host) := by
      unfold Config.GetEgressMapEntry mapIndex at hg3 ⊢
      cases hlk : c.egressMap.lookup r.Host with
      | none => rw [hlk] at hg3; exact absurd rfl hg3
      | some v => rfl
    have hl' : c.egressMap.lookup r.Host ≠ none := by rw [hl]; simp
    split_ifs
    · exact ⟨Or.inr ⟨hg1, hg2, hg3, hl, rfl⟩, Or.inl hl', by simp, by simp⟩
    · exact ⟨Or.inr ⟨hg1, hg2, hg3, hl, rfl⟩, Or.inl hl', by simp, by simp⟩

/-! ## The configuration -/

theorem validateIngressMapEntry_ok (entry : ACL)
    (h : (validateIngressMapEntry entry).1 = true) :
    entry.Path ≠ "" ∧ 0 < entry.Methods.len := by
  rw [validateIngressMapEntry_eq] at h
  by_cases hp : entry.Path = ""
  · rw [if_pos hp] at h
    exact absurd h (by simp)
  · rw [if_neg hp] at h
    by_cases hm : entry.Methods.toList = []
    · rw [if_pos hm] at h
      exact absurd h (by simp)
    · exact ⟨hp, List.length_pos.mpr hm⟩

/-- C16: when `BuildConfig` returns a nil error, the identifier of the Config
is a valid SPIFFE ID, every key of the ingress map is a valid SPIFFE ID, every
ingress value is a non-empty list whose entries each have a non-empty path and
at least one method, and every egress value is a valid SPIFFE ID. -/
theorem BuildConfig_invariants (lib : Lib) (getenv : String → String)
    (h : (BuildConfig lib getenv).2 = none) :
    lib.ValidateSpiffeID (BuildConfig lib getenv).1.identifier = none ∧
    (∀ kv ∈ (BuildConfig lib getenv).1.ingressMap,
      lib.ValidateSpiffeID kv.1 = none ∧ 0 < kv.2.len ∧
      ∀ entry ∈ kv.2.toList, entry.Path ≠ "" ∧ 0 < entry.Methods.len) ∧
    (∀ kv ∈ (BuildConfig lib getenv).1.egressMap, lib.ValidateSpiffeID kv.2 = none) := by
  rcases BuildConfig_cases lib getenv with hok | herr
  · obtain ⟨-, -, hid, hvalid, hin, hinv, heg, hegv⟩ := hok
    rw [hid, hin, heg]
    refine ⟨(validateSpiffeID_iff _ _).mp hvalid, ?_, ?_⟩
    · intro kv hkv
      obtain ⟨h1, h2, h3⟩ := validateIngressMapLoop_none lib _ hinv kv hkv
      exact ⟨(validateSpiffeID_iff _ _).mp h1, Nat.pos_of_ne_zero h2,
        fun entry he => validateIngressMapEntry_ok entry (h3 entry he)⟩
    · intro kv hkv
      exact (validateSpiffeID_iff _ _).mp (validateEgressMapLoop_none lib _ hegv kv hkv)
  · exact absurd h herr.2

set_option maxRecDepth 100000 in
/-- The environment of the good TCP test is accepted and its Config satisfies
the invariants. -/
theorem BuildConfig_invariants_witness :
    (BuildConfig testLib goodEnv).2 = none ∧
    testLib.ValidateSpiffeID (BuildConfig testLib goodEnv).1.identifier = none ∧
    (∀ kv ∈ (BuildConfig testLib goodEnv).1.ingressMap,
      testLib.ValidateSpiffeID kv.1 = none ∧ 0 < kv.2.len ∧
      ∀ entry ∈ kv.2.toList, entry.Path ≠ "" ∧ 0 < entry.Methods.len) ∧
    (∀ kv ∈ (BuildConfig testLib goodEnv).1.egressMap,
      testLib.ValidateSpiffeID kv.2 = none) :=
  ⟨by decide, BuildConfig_invariants testLib goodEnv (by decide)⟩

set_option maxRecDepth 100000 in
/-- C17 fails on the code: with EMISSARY_INGRESS_MAP (or EMISSARY_EGRESS_MAP)
set to a top-level JSON array, which is valid JSON that `json.Unmarshal`
refuses with a type error, `BuildConfig` returns a ready Config with an empty
map and a nil error. -/
theorem BuildConfig_accepts_top_level_array :
    testLib.jsonValid arrayIngressSource = true ∧
    (testLib.jsonUnmarshalIngress arrayIngressSource).2 ≠ none ∧
    (BuildConfig testLib arrayIngressEnv).2 = none ∧
    (BuildConfig testLib arrayIngressEnv).1.GetReady = true ∧
    (BuildConfig testLib arrayIngressEnv).1.ingressMap = [] ∧
    (testLib.jsonUnmarshalEgress arrayIngressSource).2 ≠ none ∧
    (BuildConfig testLib arrayEgressEnv).2 = none ∧
    (BuildConfig testLib arrayEgressEnv).1.egressMap = [] := by
  decide

theorem BuildConfig_ingressMap_eq (lib : Lib) (getenv : String → String)
    (h : (BuildConfig lib getenv).2 = none) :
    (BuildConfig lib getenv).1.ingressMap =
      (if getenv "EMISSARY_INGRESS_MAP" = "" then []
        else (lib.jsonUnmarshalIngress (getenv "EMISSARY_INGRESS_MAP")).1) := by
  rcases BuildConfig_cases lib getenv with hok | herr
  · obtain ⟨-, -, -, -, hin, -⟩ := hok
    unfold decodedIngressMap at hin
    exact hin
  · exact absurd h herr.2

theorem lookup_cons_eq {β : Type} (rest : List (String × β)) (a k' : String) (b : β) :
    ((a, b) :: rest).lookup k' = if k' = a then some b else rest.lookup k' := by
  rw [List.lookup_cons]
  by_cases h : k' = a
  · have hb : (k' == a) = true := by simpa using h
    rw [hb, if_pos h]
  · have hb : (k' == a) = false := by simpa using h
    rw [hb, if_neg h]

theorem lookup_append_single {β : Type} (m : List (String × β)) (k k' : String) (v : β) :
    (m ++ [(k, v)]).lookup k' =
      match m.lookup k' with
      | some x => some x
      | none => if k' = k then some v else none := by
  induction m with
  | nil =>
    rw [List.nil_append, lookup_cons_eq]
    rfl
  | cons kv rest ih =>
    obtain ⟨a, b⟩ := kv
    rw [List.cons_append, lookup_cons_eq, lookup_cons_eq, ih]
    by_cases h : k' = a
    · rw [if_pos h, if_pos h]
    · rw [if_neg h, if_neg h]

theorem lookup_map_replace {β : Type} (m : List (String × β)) (k k' : String) (v : β) :
    (m.map (fun kv => if kv.1 == k then (k, v) else kv)).lookup k' =
      if k' = k then (if m.any (fun kv => kv.1 == k) then some v else none)
      else m.lookup k' := by
  induction m with
  | nil => by_cases h : k' = k <;> simp [h]
  | cons kv rest ih =>
    obtain ⟨a, b⟩ := kv
    rw [List.map_cons]
    by_cases ha : a = k
    · subst ha
      have hf : (if (a, b).1 == a then (a, v) else (a, b)) = (a, v) := by simp
      rw [hf, lookup_cons_eq, ih, List.any_cons, lookup_cons_eq]
      by_cases h : k' = a
      · simp [h]
      · simp [h]
    · have hab : (a == k) = false := by simpa using ha
      have hf : (if (a, b).1 == k then (k, v) else (a, b)) = (a, b) := by
        simp only [hab, Bool.false_eq_true, if_false]
      rw [hf, lookup_cons_eq, ih, List.any_cons, lookup_cons_eq]
      by_cases h : k' = k
      · have hka : ¬ k' = a := fun h' => ha (h'.symm.trans h)
        rw [if_pos h, if_neg hka, if_pos h, hab, Bool.false_or]
      · simp [h]

theorem lookup_none_of_not_any {β : Type} (m : List (String × β)) (k : String)
    (h : m.any (fun kv => kv.1 == k) = false) : m.lookup k = none := by
  induction m with
  | nil => rfl
  | cons kv rest ih =>
    obtain ⟨a, b⟩ := kv
    rw [List.any_cons, Bool.or_eq_false_iff] at h
    have hb : (k == a) = false := by
      have : (a == k) = false := h.1
      simp only [beq_eq_false_iff_ne, ne_eq] at this ⊢
      exact fun h' => this h'.symm
    simp only [List.lookup, hb]
    exact ih h.2

/-- Reading a map after `m[key] = value`. -/
theorem lookup_mapStore {β : Type} (m : List (String × β)) (k k' : String) (v : β) :
    (mapStore m k v).lookup k' = if k' = k then some v else m.lookup k' := by
  unfold mapStore
  by_cases hany : m.any (fun kv => kv.1 == k) = true
  · rw [if_pos hany, lookup_map_replace, hany]
    simp
  · have hany' : m.any (fun kv => kv.1 == k) = false := Bool.eq_false_iff.mpr hany
    rw [if_neg hany, lookup_append_single]
    by_cases h : k' = k
    · subst h
      rw [lookup_none_of_not_any m k' hany']
    · rw [if_neg h]
      cases m.lookup k' <;> simp [h]

theorem lookup_foldl_mapStore (src : IngressSource) :
    ∀ (m : List (String × Slice ACL)) (id : String),
      (src.foldl (fun m member =>
        mapStore m member.1 (Slice.of (member.2.map sourceACL))) m).lookup id =
        match src.reverse.lookup id with
        | some entries => some (Slice.of (entries.map sourceACL))
        | none => m.lookup id := by
  induction src with
  | nil => intro m id; rfl
  | cons member rest ih =>
    intro m id
    rw [List.foldl_cons, ih, List.reverse_cons, lookup_append_single, lookup_mapStore]
    cases rest.reverse.lookup id with
    | some entries => rfl
    | none =>
      by_cases h : id = member.1
      · simp [h]
      · simp [h]

/-- What Go's decoding stores for an identity is what the source gives it. -/
theorem unmarshalIngressSource_index (src : IngressSource) (id : String) :
    mapIndex (unmarshalIngressSource src) Slice.nil id = sourceEntries src id := by
  unfold mapIndex unmarshalIngressSource sourceEntries
  rw [lookup_foldl_mapStore]
  cases src.reverse.lookup id <;> rfl

/-- C18: when EMISSARY_INGRESS_MAP holds a source of the declared shape,
decoded as Go's `json.Unmarshal` decodes it, and `BuildConfig` accepts the
configuration, the ingress map of the Config is the decoded map with nothing
reordered, dropped, merged or added, and for every identity
`GetIngressMapEntry` returns the ACL entries of that identity in source order,
each with its methods in source order. -/
theorem BuildConfig_keeps_source_order (lib : Lib) (getenv : String → String)
    (src : IngressSource)
    (hset : getenv "EMISSARY_INGRESS_MAP" ≠ "")
    (hdec : (lib.jsonUnmarshalIngress (getenv "EMISSARY_INGRESS_MAP")).1 =
      unmarshalIngressSource src)
    (hok : (BuildConfig lib getenv).2 = none) :
    (BuildConfig lib getenv).1.ingressMap = unmarshalIngressSource src ∧
    (∀ id : String, (BuildConfig lib getenv).1.GetIngressMapEntry id = sourceEntries src id) ∧
    (∀ (id : String) (entries : List (String × List String)),
      src.reverse.lookup id = some entries →
      ((BuildConfig lib getenv).1.GetIngressMapEntry id).toList =
        entries.map (fun entry => { Path := entry.1, Methods := Slice.of entry.2 })) := by
  have hmap : (BuildConfig lib getenv).1.ingressMap = unmarshalIngressSource src := by
    rw [BuildConfig_ingressMap_eq lib getenv hok, if_neg hset, hdec]
  have hget : ∀ id : String,
      (BuildConfig lib getenv).1.GetIngressMapEntry id = sourceEntries src id := by
    intro id
    unfold Config.GetIngressMapEntry
    rw [hmap]
    exact unmarshalIngressSource_index src id
  refine ⟨hmap, hget, ?_⟩
  intro id entries hl
  rw [hget id]
  unfold sourceEntries
  rw [hl]
  rfl

set_option maxRecDepth 100000 in
/-- The ordering test: the two entries of `spiffe://bogus/app3` come back in
the order of the source, and so do their methods. -/
theorem BuildConfig_keeps_source_order_witness :
    goodEnv "EMISSARY_INGRESS_MAP" ≠ "" ∧
    (testLib.jsonUnmarshalIngress (goodEnv "EMISSARY_INGRESS_MAP")).1 =
      unmarshalIngressSource goodIngressObject ∧
    (BuildConfig testLib goodEnv).2 = none ∧
    (BuildConfig testLib goodEnv).1.GetIngressMapEntry "spiffe://bogus/app3" =
      Slice.of [⟨"/test/1", Slice.of ["GET", "POST"]⟩,
        ⟨"/test/2", Slice.of ["POST", "GET"]⟩] :=
  ⟨by decide, by decide, by decide,
    ((BuildConfig_keeps_source_order testLib goodEnv goodIngressObject
      (by decide) (by decide) (by decide)).2.1 "spiffe://bogus/app3").trans (by decide)⟩

/-- C19: `BuildConfig` returns a ready Config with a nil error, or the zero
Config (not ready, empty maps and fields) with a non-nil error. -/
theorem BuildConfig_all_or_nothing (lib : Lib) (getenv : String → String) :
    ((BuildConfig lib getenv).1.GetReady = true ∧ (BuildConfig lib getenv).2 = none) ∨
    ((BuildConfig lib getenv).1 = zeroConfig ∧
      (BuildConfig lib getenv).1.GetReady = false ∧
      (BuildConfig lib getenv).2 ≠ none) := by
  rcases BuildConfig_cases lib getenv with hok | herr
  · exact Or.inl ⟨hok.2.1, hok.1⟩
  · refine Or.inr ⟨herr.1, ?_, herr.2⟩
    rw [herr.1]
    rfl

/-- C20: `validateIngressMapEntry` returns `(true, nil)` exactly when the path
is non-empty and there is at least one method; an empty path gives the error
`ingress map entry does not contain a path` whatever the methods are; a
non-empty path with nil or zero methods gives `ingress map entry does not
contain any methods`. -/
theorem validateIngressMapEntry_spec (entry : ACL) :
    (validateIngressMapEntry entry = (true, none) ↔
      (entry.Path ≠ "" ∧ 0 < entry.Methods.len)) ∧
    (entry.Path ≠ "" ∨
      validateIngressMapEntry entry =
        (false, some "ingress map entry does not contain a path")) ∧
    (entry.Path = "" ∨ 0 < entry.Methods.len ∨
      validateIngressMapEntry entry =
        (false, some "ingress map entry does not contain any methods")) := by
  rw [validateIngressMapEntry_eq]
  by_cases hp : entry.Path = ""
  · rw [if_pos hp]
    exact ⟨⟨fun h => absurd (congrArg Prod.fst h) (by simp), fun h => absurd hp h.1⟩,
      Or.inr rfl, Or.inl hp⟩
  · rw [if_neg hp]
    by_cases hm : entry.Methods.toList = []
    · rw [if_pos hm]
      refine ⟨⟨fun h => absurd (congrArg Prod.fst h) (by simp), fun h => ?_⟩,
        Or.inl hp, Or.inr (Or.inr rfl)⟩
      have := h.2
      unfold Slice.len at this
      rw [hm] at this
      exact absurd this (by simp)
    · rw [if_neg hm]
      have hpos : 0 < entry.Methods.len := List.length_pos.mpr hm
      exact ⟨⟨fun _ => ⟨hp, hpos⟩, fun _ => rfl⟩, Or.inl hp, Or.inr (Or.inl hpos)⟩

/-! ## Algebra of the matcher -/

theorem any_eq_of_perm (method : String) (xs ys : List String) (h : xs.Perm ys) :
    xs.any (fun value => value == method) = ys.any (fun value => value == method) := by
  rw [Bool.eq_iff_iff, List.any_eq_true, List.any_eq_true]
  constructor
  · rintro ⟨v, hv, hvm⟩
    exact ⟨v, h.mem_iff.mp hv, hvm⟩
  · rintro ⟨v, hv, hvm⟩
    exact ⟨v, h.mem_iff.mpr hv, hvm⟩

theorem isPathAndMethodAllowedLoop_method_order (method path : String)
    (acl acl' : List ACL)
    (h : List.Forall₂ (fun entry entry' : ACL =>
      entry.Path = entry'.Path ∧ entry.Methods.toList.Perm entry'.Methods.toList) acl acl') :
    ∀ (aclIndex : Nat) (pathMatch : Bool) (methMatch : String),
      isPathAndMethodAllowedLoop method path acl' aclIndex pathMatch methMatch =
        isPathAndMethodAllowedLoop method path acl aclIndex pathMatch methMatch := by
  induction h with
  | nil => intro k pm mm; rfl
  | cons hhead _ ih =>
    intro k pm mm
    obtain ⟨hpath, hperm⟩ := hhead
    simp only [isPathAndMethodAllowedLoop, ← hpath, any_eq_of_perm method _ _ hperm, ih]

/-- C21: replacing the methods of entries by permutations of them leaves the
whole result of `isPathAndMethodAllowed` (allowed flag, matched index, error)
as it was. -/
theorem isPathAndMethodAllowed_method_order (acl acl' : Slice ACL) (method path : String)
    (h : SameUpToMethodOrder acl acl') :
    isPathAndMethodAllowed acl' method path = isPathAndMethodAllowed acl method path := by
  unfold isPathAndMethodAllowed
  exact isPathAndMethodAllowedLoop_method_order method path _ _ h 0 false "unknown"

/-- The last entry of the ordering test with its two methods swapped. -/
theorem isPathAndMethodAllowed_method_order_witness :
    SameUpToMethodOrder
      (Slice.of [⟨"/pathx", .of ["GET", "PATCH"]⟩, ⟨"/pathy", .of ["OPTIONS"]⟩,
        ⟨"/", .of ["PUT"]⟩, ⟨"/path", .of ["PATCH", "GET"]⟩])
      (Slice.of [⟨"/pathx", .of ["GET", "PATCH"]⟩, ⟨"/pathy", .of ["OPTIONS"]⟩,
        ⟨"/", .of ["PUT"]⟩, ⟨"/path", .of ["GET", "PATCH"]⟩]) ∧
    isPathAndMethodAllowed
        (Slice.of [⟨"/pathx", .of ["GET", "PATCH"]⟩, ⟨"/pathy", .of ["OPTIONS"]⟩,
          ⟨"/", .of ["PUT"]⟩, ⟨"/path", .of ["GET", "PATCH"]⟩]) "GET" "/pathy/asdf" =
      isPathAndMethodAllowed
        (Slice.of [⟨"/pathx", .of ["GET", "PATCH"]⟩, ⟨"/pathy", .of ["OPTIONS"]⟩,
          ⟨"/", .of ["PUT"]⟩, ⟨"/path", .of ["PATCH", "GET"]⟩]) "GET" "/pathy/asdf" :=
  ⟨by unfold SameUpToMethodOrder; decide,
    isPathAndMethodAllowed_method_order _ _ "GET" "/pathy/asdf"
      (by unfold SameUpToMethodOrder; decide)⟩

/-- C22, as amended: when the request path begins with `/` and the list holds
an entry with path `/` whose methods contain the request method,
`isPathAndMethodAllowed` returns true. -/
theorem isPathAndMethodAllowed_root_entry (acl : Slice ACL) (method path : String)
    (hp : "/".data <+: path.data)
    (h : ∃ entry ∈ acl.toList, entry.Path = "/" ∧ method ∈ entry.Methods.toList) :
    (isPathAndMethodAllowed acl method path).1 = true := by
  obtain ⟨entry, hmem, hpath, hm⟩ := h
  rw [isPathAndMethodAllowed_true_iff]
  exact ⟨entry, hmem, by rw [hpath]; exact hp, hm⟩

/-- The catch-all of the overlap test: `PUT /catchall` is allowed by the last
entry. -/
theorem isPathAndMethodAllowed_root_entry_witness :
    "/".data <+: "/catchall".data ∧
    (isPathAndMethodAllowed
      (Slice.of [⟨"/pathx", .of ["GET"]⟩, ⟨"/path", .of ["PATCH"]⟩,
        ⟨"/pathy", .of ["OPTIONS"]⟩, ⟨"/", .of ["PUT"]⟩]) "PUT" "/catchall").1 = true :=
  ⟨by decide,
    isPathAndMethodAllowed_root_entry
      (Slice.of [⟨"/pathx", .of ["GET"]⟩, ⟨"/path", .of ["PATCH"]⟩,
        ⟨"/pathy", .of ["OPTIONS"]⟩, ⟨"/", .of ["PUT"]⟩]) "PUT" "/catchall"
      (by decide) ⟨⟨"/", .of ["PUT"]⟩, by decide, rfl, by decide⟩⟩

/-- C22 as written fails: the request path `*` (the target of `OPTIONS *`)
does not begin with `/`, so an entry with path `/` that lists the method does
not allow it. -/
theorem isPathAndMethodAllowed_root_entry_not_every_path :
    (∃ entry ∈ (Slice.of [⟨"/", .of ["OPTIONS"]⟩] : Slice ACL).toList,
      entry.Path = "/" ∧ "OPTIONS" ∈ entry.Methods.toList) ∧
    isPathAndMethodAllowed (Slice.of [⟨"/", .of ["OPTIONS"]⟩]) "OPTIONS" "*" =
      (false, 65535, some "no matching ACL: path match: false, method match: unknown") := by
  decide

/-- C23, as amended: when the entry at index 0 has path `/` and its methods
contain the request method, and the request path begins with `/`,
`isPathAndMethodAllowed` returns `(true, 0, nil)`, whatever follows in the
list. -/
theorem isPathAndMethodAllowed_root_first (acl : Slice ACL) (entry : ACL)
    (method path : String) (h0 : acl.toList[0]? = some entry) (hpath : entry.Path = "/")
    (hm : method ∈ entry.Methods.toList) (hp : "/".data <+: path.data) :
    isPathAndMethodAllowed acl method path = (true, 0, none) := by
  unfold isPathAndMethodAllowed
  cases hl : acl.toList with
  | nil => rw [hl] at h0; simp at h0
  | cons e rest =>
    rw [hl] at h0
    have he : e = entry := by simpa using h0
    subst he
    have h1 : HasPrefix path e.Path = true := by
      rw [HasPrefix_iff, hpath]; exact hp
    have h2 : e.Methods.toList.any (fun value => value == method) = true := by
      rw [List.any_eq_true]; exact ⟨method, hm, by simp⟩
    simp [isPathAndMethodAllowedLoop, h1, h2]

/-- A root entry that lists the method, placed first, wins over a later
entry that would match as well. -/
theorem isPathAndMethodAllowed_root_first_witness :
    (Slice.of [⟨"/", .of ["PUT"]⟩, ⟨"/path", .of ["PATCH", "PUT"]⟩] : Slice ACL).toList[0]? =
      some ⟨"/", .of ["PUT"]⟩ ∧
    isPathAndMethodAllowed (Slice.of [⟨"/", .of ["PUT"]⟩, ⟨"/path", .of ["PATCH", "PUT"]⟩])
      "PUT" "/pathasdf" = (true, 0, none) :=
  ⟨by decide,
    isPathAndMethodAllowed_root_first
      (Slice.of [⟨"/", .of ["PUT"]⟩, ⟨"/path", .of ["PATCH", "PUT"]⟩]) ⟨"/", .of ["PUT"]⟩
      "PUT" "/pathasdf" (by decide) rfl (by decide) (by decide)⟩

/-- C23 as written fails: with `/` at index 0 listing only PUT, the request
`PATCH /pathasdf` passes over it and is matched at index 1. -/
theorem isPathAndMethodAllowed_root_first_not_shadowing :
    ((Slice.of [⟨"/", .of ["PUT"]⟩, ⟨"/path", .of ["PATCH", "GET"]⟩] : Slice ACL).toList[0]?.map
      (fun entry => entry.Path)) = some "/" ∧
    isPathAndMethodAllowed (Slice.of [⟨"/", .of ["PUT"]⟩, ⟨"/path", .of ["PATCH", "GET"]⟩])
      "PATCH" "/pathasdf" = (true, 1, none) := by
  decide

/-! ## Error messages of the configuration -/

theorem afterEgress_bad_port (lib : Lib) (getenv : String → String) (l : BuildLocals)
    (he : getenv "DOGSTATSD_ENABLED" = "true") (hp : getenv "DOGSTATSD_PORT" ≠ "")
    (herr : (lib.Atoi (getenv "DOGSTATSD_PORT")).2 ≠ none) :
    BuildConfig.afterEgress lib getenv l =
      (zeroConfig, some ("failed trying to set up dogstatsd port: " ++
        fmtInt (lib.Atoi (getenv "DOGSTATSD_PORT")).1)) := by
  have herr' : (lib.Atoi (getenv "DOGSTATSD_PORT")).2.isSome = true := by
    cases h : (lib.Atoi (getenv "DOGSTATSD_PORT")).2 with
    | none => exact absurd h herr
    | some e => rfl
  unfold BuildConfig.afterEgress
  simp [he, hp, herr']

set_option maxRecDepth 100000 in
/-- C24 fails on the code: with DOGSTATSD_ENABLED `true` and DOGSTATSD_PORT
`asdf`, `BuildConfig` fails with the message `failed trying to set up dogstatsd
port: 0`: it prints the integer `strconv.Atoi` returned, and the string `asdf`
is nowhere in it. -/
theorem BuildConfig_bad_port_message :
    (portLib.Atoi "asdf").2 ≠ none ∧
    BuildConfig portLib badPortEnv =
      (zeroConfig, some "failed trying to set up dogstatsd port: 0") ∧
    ¬ ("asdf".data <:+: "failed trying to set up dogstatsd port: 0".data) := by
  decide

/-! ## The provider client -/

/-- C25: `AuthClient.Fetch` returns a nil error exactly when the workload API
call succeeds with exactly one SVID, and then returns the token of that SVID;
in every other case it returns the empty string and an error whose message
begins with `bad fetch from workload api: `. -/
theorem AuthClient_Fetch_spec (s : AuthClient) (spiffeID egressAudience : String) :
    ((s.Fetch spiffeID egressAudience).2 = none ↔
      ((s.spiffeClient.FetchJWTSVID
          { Audience := [egressAudience], SpiffeId := spiffeID }).2 = none ∧
        (s.spiffeClient.FetchJWTSVID
          { Audience := [egressAudience], SpiffeId := spiffeID }).1.Svids.length = 1)) ∧
    ((∃ svid : WorkloadSVID,
        (s.spiffeClient.FetchJWTSVID
          { Audience := [egressAudience], SpiffeId := spiffeID }).2 = none ∧
        (s.spiffeClient.FetchJWTSVID
          { Audience := [egressAudience], SpiffeId := spiffeID }).1.Svids = [svid] ∧
        s.Fetch spiffeID egressAudience = (svid.Svid, none)) ∨
      (∃ rest : String, s.Fetch spiffeID egressAudience =
        ("", some ("bad fetch from workload api: " ++ rest)))) := by
  unfold AuthClient.Fetch AuthClient.fetchJWTSVIDViaWorkloadAPI getSVID
  simp only []
  cases hf : (s.spiffeClient.FetchJWTSVID
      { Audience := [egressAudience], SpiffeId := spiffeID }).2 with
  | some err => exact ⟨by simp, Or.inr ⟨_, rfl⟩⟩
  | none =>
    simp only []
    by_cases hlen : (s.spiffeClient.FetchJWTSVID
        { Audience := [egressAudience], SpiffeId := spiffeID }).1.Svids.length = 1
    · obtain ⟨svid, hsv⟩ := List.length_eq_one.mp hlen
      simp only [hsv, List.length_singleton, ne_eq, not_true_eq_false, if_false,
        List.head?_cons, Option.map_some', Option.getD_some]
      exact ⟨by simp, Or.inl ⟨svid, trivial, rfl, rfl⟩⟩
    · simp only [ne_eq, hlen, not_false_eq_true, if_true]
      exact ⟨by simp, Or.inr ⟨_, rfl⟩⟩

/-- C27: `getSubject` returns `(s, nil)` exactly when the claims hold a field
`sub` of string kind with value `s`; without a field `sub` it returns the error
`jwt missing subject claim`, with a field `sub` of another kind the error `jwt
subject claim not a string`; the SpiffeId field of the response plays no
part. -/
theorem getSubject_spec (response : ValidateJWTSVIDResponse) :
    (∀ s : String, getSubject response = (s, none) ↔
      response.Claims.lookup "sub" = some (ValueKind.StringValue s)) ∧
    ((response.Claims.lookup "sub" = none ∧
        getSubject response = ("", some "jwt missing subject claim")) ∨
      (∃ s : String, response.Claims.lookup "sub" = some (ValueKind.StringValue s) ∧
        getSubject response = (s, none)) ∨
      (∃ kind : ValueKind, response.Claims.lookup "sub" = some kind ∧
        (∀ s : String, kind ≠ ValueKind.StringValue s) ∧
        getSubject response = ("", some "jwt subject claim not a string"))) ∧
    (∀ spiffeId : String,
      getSubject { response with SpiffeId := spiffeId } = getSubject response) := by
  refine ⟨?_, ?_, fun _ => rfl⟩
  · intro s
    unfold getSubject
    cases hl : response.Claims.lookup "sub" with
    | none => simp
    | some kind => cases kind <;> simp
  · unfold getSubject
    cases hl : response.Claims.lookup "sub" with
    | none => exact Or.inl ⟨rfl, rfl⟩
    | some kind =>
      cases kind with
      | StringValue v => exact Or.inr (Or.inl ⟨v, rfl, rfl⟩)
      | unset => exact Or.inr (Or.inr ⟨_, rfl, by simp, rfl⟩)
      | NullValue => exact Or.inr (Or.inr ⟨_, rfl, by simp, rfl⟩)
      | NumberValue => exact Or.inr (Or.inr ⟨_, rfl, by simp, rfl⟩)
      | BoolValue => exact Or.inr (Or.inr ⟨_, rfl, by simp, rfl⟩)
      | StructValue => exact Or.inr (Or.inr ⟨_, rfl, by simp, rfl⟩)
      | ListValue => exact Or.inr (Or.inr ⟨_, rfl, by simp, rfl⟩)

/-- C28: `AuthClient.Validate` returns `(true, subject, nil)` or `(false, "",
err)` with a non-nil `err`: the flag is true exactly when the error is nil, so
the real client never answers `isValid = false` with a nil error. -/
theorem AuthClient_Validate_shape (sprintf : String → String) (s : AuthClient)
    (svid identifier : String) :
    ((∃ subject : String, s.Validate sprintf svid identifier = (true, subject, none)) ∨
      (∃ msg : String, s.Validate sprintf svid identifier = (false, "", some msg))) ∧
    ((s.Validate sprintf svid identifier).1 = true ↔
      (s.Validate sprintf svid identifier).2.2 = none) ∧
    ¬ ((s.Validate sprintf svid identifier).1 = false ∧
      (s.Validate sprintf svid identifier).2.2 = none) := by
  unfold AuthClient.Validate
  simp only []
  cases (s.validateJWTSVIDViaWorkloadAPI sprintf svid identifier).2 with
  | some err => exact ⟨Or.inr ⟨_, rfl⟩, by simp, by simp⟩
  | none => exact ⟨Or.inl ⟨_, rfl⟩, by simp, by simp⟩

/-! ## The health check -/

/-- C26: `HealthHandler` writes status 503 when the check is not healthy
(with or without an error), status 500 when it is healthy with an error, and
status 200 exactly when it is healthy without an error; it returns a nil
error. -/
theorem HealthHandler_status (h : HealthCheck) (r : Request) :
    ((h.RunCheck.1 = false ∧
        (HealthHandler h ResponseWriter.fresh r).1.w.code = some 503) ∨
      (h.RunCheck.1 = true ∧ h.RunCheck.2 ≠ none ∧
        (HealthHandler h ResponseWriter.fresh r).1.w.code = some 500) ∨
      (h.RunCheck.1 = true ∧ h.RunCheck.2 = none ∧
        (HealthHandler h ResponseWriter.fresh r).1.w.code = some 200)) ∧
    ((HealthHandler h ResponseWriter.fresh r).1.w.code = some 200 ↔
      (h.RunCheck.1 = true ∧ h.RunCheck.2 = none)) ∧
    (HealthHandler h ResponseWriter.fresh r).2 = none := by
  unfold HealthHandler
  simp only []
  cases h1 : h.RunCheck.1 with
  | false => exact ⟨Or.inl ⟨rfl, rfl⟩, by simp [ResponseWriter.WriteHeader,
      ResponseWriter.fresh, StatusServiceUnavailable], rfl⟩
  | true =>
    cases h2 : h.RunCheck.2 with
    | some err => exact ⟨Or.inr (Or.inl ⟨rfl, by simp, rfl⟩), by simp
        [ResponseWriter.WriteHeader, ResponseWriter.fresh, StatusInternalServerError], rfl⟩
    | none => exact ⟨Or.inr (Or.inr ⟨rfl, rfl, rfl⟩), by simp
        [ResponseWriter.WriteHeader, ResponseWriter.fresh, StatusOK], rfl⟩

/-! ## Across the two directions -/

/-- C29: the header value `setEgressSuccessResponse` writes for a token `t`
is `"bearer "` followed by `t`, and `parseJWTHeader` gives back `(t, true)`
for it. -/
theorem egress_header_round_trip (w : ResponseWriter) (t : String) :
    (setEgressSuccessResponse w t).headerValue JWTsvidHeaderKey = some (bearerStr ++ t) ∧
    parseJWTHeader (bearerStr ++ t) = (t, true) := by
  refine ⟨?_, parseJWTHeader_bearer t⟩
  unfold setEgressSuccessResponse ResponseWriter.WriteHeader ResponseWriter.headerSet
    ResponseWriter.headerValue
  cases w.code <;> simp [List.lookup]

/-- C30: two configurations with the same identifier and the same ingress
map entry for the subject `s` give the same ingress outcome for a request whose
assertion `Validate` accepts as `s`, whatever the Host of the request and
whatever else the configurations hold. -/
theorem ingressMode_config_dependence (jwtClient : JWTSVID) (c₁ c₂ : Config) (r : Request)
    (host : String) (t s : String)
    (hid : c₁.GetIdentifier = c₂.GetIdentifier)
    (hentry : c₁.GetIngressMapEntry s = c₂.GetIngressMapEntry s)
    (hh : r.headerGet JWTsvidHeaderKey = bearerStr ++ t)
    (hv : jwtClient.Validate t c₁.GetIdentifier = (true, s, none)) :
    ingressMode jwtClient c₁ ResponseWriter.fresh r =
      ingressMode jwtClient c₂ ResponseWriter.fresh { r with Host := host } := by
  have hh' : ({ r with Host := host } : Request).headerGet JWTsvidHeaderKey =
      bearerStr ++ t := hh
  rw [ingressMode_eq, ingressMode_eq, hh', hh, parseJWTHeader_bearer, ← hid, hv]
  simp only [hentry]

/-- The happy path of the ingress tests under two configurations that agree
on the identifier and on the ACL list of the subject only. -/
theorem ingressMode_config_dependence_witness :
    testConfig.GetIdentifier = otherConfig.GetIdentifier ∧
    testConfig.GetIngressMapEntry "spiffe://goodsubject" =
      otherConfig.GetIngressMapEntry "spiffe://goodsubject" ∧
    testConfig.egressMap ≠ otherConfig.egressMap ∧
    ingressMode (stubProvider (true, "spiffe://goodsubject", none) ("", none)) testConfig
        ResponseWriter.fresh
        (testRequest "GET" "/asdf" "" [("x-emissary-mode", "ingress"),
          ("x-emissary-auth", "bearer validsvid")]) =
      ingressMode (stubProvider (true, "spiffe://goodsubject", none) ("", none)) otherConfig
        ResponseWriter.fresh
        { testRequest "GET" "/asdf" "" [("x-emissary-mode", "ingress"),
            ("x-emissary-auth", "bearer validsvid")] with Host := "elsewhere.net" } :=
  ⟨by decide, by decide, by decide,
    ingressMode_config_dependence
      (stubProvider (true, "spiffe://goodsubject", none) ("", none)) testConfig otherConfig
      (testRequest "GET" "/asdf" "" [("x-emissary-mode", "ingress"),
        ("x-emissary-auth", "bearer validsvid")])
      "elsewhere.net" "validsvid" "spiffe://goodsubject"
      (by decide) (by decide) (by decide) (by decide)⟩

end Emissary
